import Mathlib

/-!
Verification development for a PDF interactive-form library.

The library sits on top of a document object model (dictionaries, arrays,
references, streams).  We shallowly embed the object graph and the form
operations: field discovery (`load_doc`), classification (`classify`),
state reading (`get_state`), and the value mutators (`set_text`,
`set_check_box`, `set_radio`, `set_list_box`, `set_combo_box`), plus the
text-appearance regenerator.

Modelling conventions:
* byte strings that the source treats as UTF-8 are modelled as `String`
  (so `from_utf8` never fails in the model);
* machine integers: the source reads flag words as `i64` and casts to
  `u32`; we model the cast as `% 2^32` on `Int` with a `toNat`;
* panics (`unwrap` on a failing lookup, out-of-bounds indexing) are
  modelled by `Option`: a result of `none` means the source panics;
* fallible operations returning `Result` are modelled with `Except`;
* stream contents are modelled as already-decoded operation lists (the
  decode/encode round trip is owned by the external object model);
* real numbers appear only in the regenerated appearance stream, where the
  source computes an f64 text offset; the model stores that operand in
  exact tenths of a unit as an integer, because no observable property of
  this development depends on its value.
-/

namespace PdfForm

/-- Embedded `lopdf::Object`: the object-graph value type.  Stream contents
are stored as decoded content-stream operations (operator name with its
operand objects). -/
inductive Obj where
  | null
  | boolean (b : Bool)
  | integer (i : Int)
  | name (s : String)
  | strLit (s : String)
  | strHex (s : String)
  | array (elems : List Obj)
  | dict (entries : List (String × Obj))
  | stream (sdict : List (String × Obj)) (ops : List (String × List Obj))
  | reference (oid : Nat)

/-- Object table of a document: association list from object id to object,
standing for `lopdf::Document::objects`. -/
abbrev Doc := List (Nat × Obj)

/-- Lookup in a dictionary (`lopdf::Dictionary::get`): first entry with the
given key, `none` when absent. -/
def dictGet : List (String × Obj) → String → Option Obj
  | [], _ => none
  | (k, v) :: rest, key => if k = key then some v else dictGet rest key

/-- Update in a dictionary (`lopdf::Dictionary::set`): replace the value in
place when the key is present, append otherwise. -/
def dictSet : List (String × Obj) → String → Obj → List (String × Obj)
  | [], key, x => [(key, x)]
  | (k, v) :: rest, key, x =>
      if k = key then (k, x) :: rest else (k, v) :: dictSet rest key x

/-- Lookup in the object table (`doc.objects.get`). -/
def docGet : Doc → Nat → Option Obj
  | [], _ => none
  | (k, v) :: rest, oid => if k = oid then some v else docGet rest oid

/-- In-place update of the object table (`doc.objects.get_mut` followed by a
write through the borrow); it replaces the object of an existing id and
does not insert fresh ids. -/
def docSet : Doc → Nat → Obj → Doc
  | [], _, _ => []
  | (k, v) :: rest, oid, x =>
      if k = oid then (k, x) :: rest else (k, v) :: docSet rest oid x

/-- Embedded `Form`: the loaded object table together with the ordered list
of discovered field identities. -/
structure Form where
  doc : Doc
  form_ids : List Nat

/-- Embedded `FieldType`. -/
inductive FieldType where
  | button
  | radio
  | checkBox
  | listBox
  | comboBox
  | text
  | unknown
deriving DecidableEq

/-- Embedded `LoadError`. -/
inductive LoadError where
  | lopdfError
  | noSuchReference (oid : Nat)
  | notAReference
deriving DecidableEq

/-- Embedded `ValueError`. -/
inductive ValueError where
  | typeMismatch
  | invalidSelection
  | tooManySelected
  | readonly
deriving DecidableEq

/-- Embedded `FieldState`. -/
inductive FieldState where
  | button
  | radio (selected : String) (options : List String) (readonly : Bool) (required : Bool)
  | checkBox (is_checked : Bool) (readonly : Bool) (required : Bool)
  | listBox (selected : List String) (options : List String) (multiselect : Bool)
      (readonly : Bool) (required : Bool)
  | comboBox (selected : List String) (options : List String) (editable : Bool)
      (readonly : Bool) (required : Bool)
  | text (text : String) (readonly : Bool) (required : Bool)
  | unknown

/-- Behavior flag `FieldFlags::READONLY`. -/
def READONLY : Nat := 0x1

/-- Behavior flag `FieldFlags::REQUIRED`. -/
def REQUIRED : Nat := 0x2

/-- Button flag `ButtonFlags::NO_TOGGLE_TO_OFF`. -/
def NO_TOGGLE_TO_OFF : Nat := 0x8000

/-- Button flag `ButtonFlags::RADIO`. -/
def RADIO : Nat := 0x10000

/-- Button flag `ButtonFlags::PUSHBUTTON`. -/
def PUSHBUTTON : Nat := 0x20000

/-- Button flag `ButtonFlags::RADIO_IN_UNISON`. -/
def RADIO_IN_UNISON : Nat := 0x4000000

/-- Choice flag `ChoiceFlags::COBMO` (the source spells the combo-box flag
this way). -/
def COBMO : Nat := 0x20000

/-- Choice flag `ChoiceFlags::EDIT`. -/
def EDIT : Nat := 0x40000

/-- Choice flag `ChoiceFlags::SORT`. -/
def SORT : Nat := 0x80000

/-- Choice flag `ChoiceFlags::MULTISELECT`. -/
def MULTISELECT : Nat := 0x200000

/-- Choice flag `ChoiceFlags::DO_NOT_SPELLCHECK`. -/
def DO_NOT_SPELLCHECK : Nat := 0x800000

/-- Choice flag `ChoiceFlags::COMMIT_ON_CHANGE`. -/
def COMMIT_ON_CHANGE : Nat := 0x8000000

/-- All bits declared in `FieldFlags`; `from_bits_truncate` masks with this. -/
def fieldFlagsAll : Nat := READONLY ||| REQUIRED

/-- All bits declared in `ButtonFlags`. -/
def buttonFlagsAll : Nat := NO_TOGGLE_TO_OFF ||| RADIO ||| PUSHBUTTON ||| RADIO_IN_UNISON

/-- All bits declared in `ChoiceFlags`. -/
def choiceFlagsAll : Nat :=
  COBMO ||| EDIT ||| SORT ||| MULTISELECT ||| DO_NOT_SPELLCHECK ||| COMMIT_ON_CHANGE

/-- Embedded `utils::get_field_flags`: read the optional `Ff` integer
(absent means 0) and cast `i64` to `u32`.  A present non-integer `Ff`
makes the source `unwrap` panic, modelled as `none`. -/
def get_field_flags (field : List (String × Obj)) : Option Nat :=
  match dictGet field "Ff" with
  | none => some 0
  | some (.integer i) => some ((i % 4294967296).toNat)
  | some _ => none

/-- Embedded `utils::is_read_only`. -/
def is_read_only (field : List (String × Obj)) : Option Bool :=
  (get_field_flags field).map (fun fl => (fl &&& fieldFlagsAll) &&& READONLY != 0)

/-- Embedded `utils::is_required`. -/
def is_required (field : List (String × Obj)) : Option Bool :=
  (get_field_flags field).map (fun fl => (fl &&& fieldFlagsAll) &&& REQUIRED != 0)

/-- Classification logic of `Form::get_type`, factored over the field
record: dispatch on the `FT` name, then on the truncated flag bits.
`none` models the panics (`FT` absent or not a name, `Ff` not an
integer). -/
def classify (field : List (String × Obj)) : Option FieldType :=
  match dictGet field "FT" with
  | some (.name type_str) =>
      if type_str = "Btn" then
        (get_field_flags field).map (fun fl =>
          let flags := fl &&& buttonFlagsAll
          if flags &&& ( RADIO ||| NO_TOGGLE_TO_OFF) != 0 then .radio
          else if flags &&& PUSHBUTTON != 0 then .button
          else .checkBox)
      else if type_str = "Ch" then
        (get_field_flags field).map (fun fl =>
          let flags := fl &&& choiceFlagsAll
          if flags &&& COBMO != 0 then .comboBox else .listBox)
      else if type_str = "Tx" then some .text
      else some .unknown
  | some _ => none
  | none => none

/-- Embedded `Form::get_type`.  `none` models the panics (index out of
range, missing object, field not a dictionary, plus those of
`classify`). -/
def get_type (f : Form) (n : Nat) : Option FieldType :=
  match f.form_ids[n]? with
  | none => none
  | some oid =>
      match docGet f.doc oid with
      | some (.dict field) => classify field
      | _ => none

/-- Embedded `Object::as_name_str`-with-`unwrap`: `none` models the panic on
a non-name object. -/
def asNameStr : Obj → Option String
  | .name s => some s
  | _ => none

/-- Selected option of a radio field: the `V` name if present, else the `AS`
name, else the empty string; a present non-name value makes the source
panic. -/
def radioSelected (field : List (String × Obj)) : Option String :=
  match dictGet field "V" with
  | some v => asNameStr v
  | none =>
      match dictGet field "AS" with
      | some v => asNameStr v
      | none => some ""

/-- Checked state of a checkbox: true exactly when the `V` (else `AS`) name
equals the literal `Yes`; false when both are absent; a present non-name
value makes the source panic. -/
def checkbox_checked (field : List (String × Obj)) : Option Bool :=
  match dictGet field "V" with
  | some v => (asNameStr v).map (fun s => s == "Yes")
  | none =>
      match dictGet field "AS" with
      | some v => (asNameStr v).map (fun s => s == "Yes")
      | none => some false

/-- Selected options of a choice field, from `V`: a literal string gives a
singleton, an array keeps its literal-string elements, anything else
(including absence) gives the empty list. -/
def choiceSelected (field : List (String × Obj)) : List String :=
  match dictGet field "V" with
  | some (.strLit s) => [s]
  | some (.array chosen) =>
      chosen.filterMap (fun o => match o with | .strLit s => some s | _ => none)
  | some _ => []
  | none => []

/-- Per-entry mapping of the `Opt` array: a literal string passes through;
an array contributes its element at index 1 when that is a literal string
and the empty string otherwise; other shapes give the empty string.  The
source indexes `arr[1]` unconditionally, so an array entry with fewer than
two elements panics (`none`). -/
def optEntryString : Obj → Option String
  | .strLit s => some s
  | .array arr =>
      match arr.get? 1 with
      | some (.strLit s) => some s
      | some _ => some ""
      | none => none
  | _ => some ""

/-- Mapping step of the `Opt` iterator chain: each entry through
`optEntryString`, left to right, a panic aborting the whole chain. -/
def optStringsRaw : List Obj → Option (List String)
  | [] => some []
  | o :: rest =>
      match optEntryString o with
      | none => none
      | some s =>
          match optStringsRaw rest with
          | none => none
          | some ss => some (s :: ss)

/-- Option list of a choice field from its `Opt` array: map each entry
through `optEntryString`, then drop the empty strings. -/
def optStrings (options : List Obj) : Option (List String) :=
  (optStringsRaw options).map (fun ss => ss.filter (fun x => !x.isEmpty))

/-- Option list of a choice field: `Opt` must be present and an array,
otherwise the options are empty. -/
def choiceOptions (field : List (String × Obj)) : Option (List String) :=
  match dictGet field "Opt" with
  | some (.array options) => optStrings options
  | _ => some []

/-- Multiselect flag of a choice field. -/
def choiceMultiselect (field : List (String × Obj)) : Option Bool :=
  (get_field_flags field).map (fun fl => (fl &&& choiceFlagsAll) &&& MULTISELECT != 0)

/-- Editable flag of a combo-box field. -/
def choiceEditable (field : List (String × Obj)) : Option Bool :=
  (get_field_flags field).map (fun fl => (fl &&& choiceFlagsAll) &&& EDIT != 0)

/-- Text of a text field: the `V` literal string if present, else empty. -/
def textValue (field : List (String × Obj)) : String :=
  match dictGet field "V" with
  | some (.strLit s) => s
  | _ => ""

/-- Option name contributed by one child widget of a radio field, at
position `i`: the first key of its `AP` normal-appearance (`N`)
sub-dictionary different from `Off`, else the stringified position.  A
child that is not a resolvable reference to a dictionary makes the source
`unwrap` panic (`none`). -/
def kidOption (doc : Doc) (i : Nat) (kid : Obj) : Option String :=
  match kid with
  | .reference koid =>
      match docGet doc koid with
      | some (.dict kd) =>
          some (match dictGet kd "AP" with
            | some (.dict appearance_states) =>
                match dictGet appearance_states "N" with
                | some (.dict normal_appearance) =>
                    match normal_appearance.find? (fun kv => kv.1 != "Off") with
                    | some kv => kv.1
                    | none => toString i
                | _ => toString i
            | _ => toString i)
      | _ => none
  | _ => none

/-- Loop of `Form::get_possibilities` over the kids, carrying the
enumeration index. -/
def possLoop (doc : Doc) : List Obj → Nat → Option (List String)
  | [], _ => some []
  | kid :: rest, i =>
      match kidOption doc i kid with
      | none => none
      | some s =>
          match possLoop doc rest (i + 1) with
          | none => none
          | some tail => some (s :: tail)

/-- Embedded `Form::get_possibilities`: one option name per entry of the
field's `Kids` array; no `Kids` array means no options. -/
def get_possibilities (doc : Doc) (oid : Nat) : Option (List String) :=
  match docGet doc oid with
  | some (.dict field) =>
      match dictGet field "Kids" with
      | some (.array kids) => possLoop doc kids 0
      | _ => some []
  | _ => none

/-- Embedded `Form::get_state`.  `none` models the panics of the source
(failed `unwrap`s in the field lookups, flag reads, name reads, option
parsing and kid resolution). -/
def get_state (f : Form) (n : Nat) : Option FieldState :=
  match f.form_ids[n]? with
  | none => none
  | some oid =>
      match docGet f.doc oid with
      | some (.dict field) =>
          match classify field with
          | none => none
          | some .button => some .button
          | some .radio =>
              match radioSelected field, get_possibilities f.doc oid,
                  is_read_only field, is_required field with
              | some sel, some opts, some ro, some rq => some (.radio sel opts ro rq)
              | _, _, _, _ => none
          | some .checkBox =>
              match checkbox_checked field, is_read_only field, is_required field with
              | some ic, some ro, some rq => some (.checkBox ic ro rq)
              | _, _, _ => none
          | some .listBox =>
              match choiceOptions field, choiceMultiselect field,
                  is_read_only field, is_required field with
              | some opts, some ms, some ro, some rq =>
                  some (.listBox (choiceSelected field) opts ms ro rq)
              | _, _, _, _ => none
          | some .comboBox =>
              match choiceOptions field, choiceEditable field,
                  is_read_only field, is_required field with
              | some opts, some ed, some ro, some rq =>
                  some (.comboBox (choiceSelected field) opts ed ro rq)
              | _, _, _, _ => none
          | some .text =>
              match is_read_only field, is_required field with
              | some ro, some rq => some (.text (textValue field) ro rq)
              | _, _ => none
          | some .unknown => some .unknown
      | _ => none

/-- Embedded `utils::get_on_value`: the first key of the field's `AP`
normal-appearance (`N`) sub-dictionary different from `Off`, defaulting to
`Yes` when `AP`, `N` or such a key is missing. -/
def get_on_value (field : List (String × Obj)) : String :=
  match dictGet field "AP" with
  | some (.dict apDict) =>
      match dictGet apDict "N" with
      | some (.dict options) =>
          match options.find? (fun kv => kv.1 != "Off") with
          | some kv => kv.1
          | none => "Yes"
      | _ => "Yes"
  | _ => "Yes"

/-- Operators stripped from the appearance stream before regeneration. -/
def ignoredOperators : List String :=
  ["bt", "tc", "tw", "tz", "g", "tr", "tf", "tj", "et", "q", "bmc", "emc"]

/-- Font quadruple parsed from the default-appearance string: strip leading
slashes, split on single spaces, and when exactly five tokens result take
(name, size, color value, color operator); otherwise the fixed default
`(Helv, 12, 0, g)`. -/
def parseDaTokens (s : String) : String × Int × Int × String :=
  let values := (s.dropWhile (fun c => c = '/')).splitOn " "
  if values.length ≠ 5 then ("Helv", 12, 0, "g")
  else ((values.get? 0).getD "",
        (((values.get? 1).getD "").toInt?).getD 0,
        (((values.get? 3).getD "").toInt?).getD 0,
        (values.get? 4).getD "")

/-- Font derivation of `regenerate_text_appearance`: a string `DA` (of
either format) is parsed, anything else falls back to the default font. -/
def parseDa (da : Obj) : String × Int × Int × String :=
  match da with
  | .strLit s => parseDaTokens s
  | .strHex s => parseDaTokens s
  | _ => ("Helv", 12, 0, "g")

/-- Fresh operations appended after the retained ones: marked content, text
object, font, color, text matrix and the shown value.  The two `Tm`
translation operands are the source's f64 offsets stored in exact tenths
of a unit (x is the fixed 3.0, y is `0.5*(rect[3]-rect[1]) - 0.4*size`). -/
def appendedOps (value : Obj) (fontName : String) (fontSize : Int)
    (fontColorVal : Int) (fontColorOp : String) (yTenths : Int) :
    List (String × List Obj) :=
  [("BMC", [Obj.name "Tx"]), ("q", []), ("BT", []),
   ("Tf", [Obj.name fontName, Obj.integer fontSize]),
   (fontColorOp, [Obj.integer fontColorVal]),
   ("Tm", [Obj.integer 1, Obj.integer 0, Obj.integer 0, Obj.integer 1,
           Obj.integer 30, Obj.integer yTenths]),
   ("Tj", [value]), ("ET", []), ("Q", []), ("EMC", [])]

/-- Embedded `Form::regenerate_text_appearance`.  Reads `V`, `DA`, `Rect`
and the `AP`/`N` stream reference of the field; any failing read returns
an error without mutating the document; on the success path the stream's
operations are filtered and the fresh text-rendering operations appended.
`none` models the panics: the field lookup `unwrap`s, and the unchecked
`rect[3]`/`rect[1]` indexing.  Rectangle coordinates are modelled as
integers (the source coerces integer-or-real to f64); the stream is stored
as decoded operations, so decompression, decoding and re-encoding (owned
by the external object model) are modelled as the identity and never
fail. -/
def regenerate_text_appearance (f : Form) (n : Nat) : Option (Except Unit Form) :=
  match f.form_ids[n]? with
  | none => none
  | some oid =>
      match docGet f.doc oid with
      | some (.dict field) =>
          match dictGet field "V", dictGet field "DA", dictGet field "Rect" with
          | some value, some da, some rectObj =>
              match rectObj with
              | .array rectArr =>
                  let rect := rectArr.map (fun o =>
                    match o with | .integer i => i | _ => 0)
                  match dictGet field "AP" with
                  | some (.dict apDict) =>
                      match dictGet apDict "N" with
                      | some (.reference object_id) =>
                          match docGet f.doc object_id with
                          | some (.stream sdict ops) =>
                              let kept := ops.filter (fun op =>
                                !(ignoredOperators.contains op.1.toLower))
                              let font := parseDa da
                              match rect.get? 3, rect.get? 1 with
                              | some r3, some r1 =>
                                  let yTenths : Int := 5 * (r3 - r1) - 4 * font.2.1
                                  some (.ok ⟨docSet f.doc object_id
                                    (.stream sdict (kept ++
                                      appendedOps value font.1 font.2.1
                                        font.2.2.1 font.2.2.2 yTenths)),
                                    f.form_ids⟩)
                              | _, _ => none
                          | some _ => some (.error ())
                          | none => some (.error ())
                      | some _ => some (.error ())
                      | none => some (.error ())
                  | some _ => some (.error ())
                  | none => some (.error ())
              | _ => some (.error ())
          | _, _, _ => some (.error ())
      | some _ => none
      | none => none

/-- Embedded `Form::set_text`: on a text field, write `V` as the literal
string and regenerate the appearance, ignoring a regeneration error (a
regeneration panic still propagates); on any other field type return
`TypeMismatch`. -/
def set_text (f : Form) (n : Nat) (s : String) : Option (Except ValueError Form) :=
  match get_state f n with
  | none => none
  | some (.text _ _ _) =>
      match f.form_ids[n]? with
      | none => none
      | some oid =>
          match docGet f.doc oid with
          | some (.dict field) =>
              let f' : Form := ⟨docSet f.doc oid
                (.dict (dictSet field "V" (.strLit s))), f.form_ids⟩
              match regenerate_text_appearance f' n with
              | none => none
              | some (.ok g) => some (.ok g)
              | some (.error _) => some (.ok f')
          | _ => none
  | some _ => some (.error .typeMismatch)

/-- Embedded `Form::set_check_box`: on a checkbox field, write both `V` and
`AS` to the configured on-value name when checking and to `Off` when
unchecking. -/
def set_check_box (f : Form) (n : Nat) (is_checked : Bool) :
    Option (Except ValueError Form) :=
  match get_state f n with
  | none => none
  | some (.checkBox _ _ _) =>
      match f.form_ids[n]? with
      | none => none
      | some oid =>
          match docGet f.doc oid with
          | some (.dict field) =>
              let onValue := get_on_value field
              let state := Obj.name (if is_checked then onValue else "Off")
              some (.ok ⟨docSet f.doc oid
                (.dict (dictSet (dictSet field "V" state) "AS" state)),
                f.form_ids⟩)
          | _ => none
  | some _ => some (.error .typeMismatch)

/-- Embedded `Form::set_radio`: on a radio field, write `V` as the chosen
option name when it is among the options, else `InvalidSelection`. -/
def set_radio (f : Form) (n : Nat) (choice : String) :
    Option (Except ValueError Form) :=
  match get_state f n with
  | none => none
  | some (.radio _ options _ _) =>
      if options.contains choice then
        match f.form_ids[n]? with
        | none => none
        | some oid =>
            match docGet f.doc oid with
            | some (.dict field) =>
                some (.ok ⟨docSet f.doc oid
                  (.dict (dictSet field "V" (.name choice))), f.form_ids⟩)
            | _ => none
      else some (.error .invalidSelection)
  | some _ => some (.error .typeMismatch)

/-- Value written by `set_list_box` for a given choice list: null for none,
a literal string for one, an array of literal strings for several. -/
def listBoxValue : List String → Obj
  | [] => .null
  | [c] => .strLit c
  | cs => .array (cs.map (fun x => .strLit x))

/-- Embedded `Form::set_list_box`: `InvalidSelection` unless every choice is
among the options (a left fold over the choices), then `TooManySelected`
when several choices hit a single-select field, else write `V`. -/
def set_list_box (f : Form) (n : Nat) (choices : List String) :
    Option (Except ValueError Form) :=
  match get_state f n with
  | none => none
  | some (.listBox _ options multiselect _ _) =>
      if choices.foldl (fun a h => options.contains h && a) true then
        if !multiselect && decide (choices.length > 1) then
          some (.error .tooManySelected)
        else
          match f.form_ids[n]? with
          | none => none
          | some oid =>
              match docGet f.doc oid with
              | some (.dict field) =>
                  some (.ok ⟨docSet f.doc oid
                    (.dict (dictSet field "V" (listBoxValue choices))),
                    f.form_ids⟩)
              | _ => none
      else some (.error .invalidSelection)
  | some _ => some (.error .typeMismatch)

/-- Embedded `Form::set_combo_box`: write `V` as a literal string when the
choice is among the options or the field is editable, else
`InvalidSelection`. -/
def set_combo_box (f : Form) (n : Nat) (choice : String) :
    Option (Except ValueError Form) :=
  match get_state f n with
  | none => none
  | some (.comboBox _ options editable _ _) =>
      if options.contains choice || editable then
        match f.form_ids[n]? with
        | none => none
        | some oid =>
            match docGet f.doc oid with
            | some (.dict field) =>
                some (.ok ⟨docSet f.doc oid
                  (.dict (dictSet field "V" (.strLit choice))), f.form_ids⟩)
            | _ => none
      else some (.error .invalidSelection)
  | some _ => some (.error .typeMismatch)

/-- Embedded `PdfObjectDeref::deref`: a reference resolves through the
object table (`NoSuchReference` when dangling); a non-reference is
`NotAReference`. -/
def derefObj (o : Obj) (doc : Doc) : Except LoadError Obj :=
  match o with
  | .reference oid =>
      match docGet doc oid with
      | some obj => .ok obj
      | none => .error (.noSuchReference oid)
  | _ => .error .notAReference

/-- Identity of a reference object (`as_reference().unwrap()`; the loader
only calls it on objects already dereferenced successfully, so the default
branch is unreachable there). -/
def refId : Obj → Nat
  | .reference oid => oid
  | _ => 0

/-- Discovery loop of `Form::load_doc`: FIFO queue of references, appending
to the result exactly when the resolved dictionary carries `FT`, and
enqueueing the entries of a present `Kids` array.  The fuel counts
dequeue steps; `none` means the fuel ran out (the source loops until the
queue empties). -/
def loadLoop (doc : Doc) : List Obj → List Nat → Nat →
    Option (Except LoadError (List Nat))
  | [], acc, _ => some (.ok acc)
  | _ :: _, _, 0 => none
  | objref :: queue, acc, fuel + 1 =>
      match derefObj objref doc with
      | .error e => some (.error e)
      | .ok (.dict d) =>
          loadLoop doc
            (match dictGet d "Kids" with
             | some (.array kids) => queue ++ kids
             | _ => queue)
            (if (dictGet d "FT").isSome then acc ++ [refId objref] else acc)
            fuel
      | .ok _ => loadLoop doc queue acc fuel

/-- Document as handed to `Form::load_doc`: the object table plus the
trailer dictionary.  Decompression is owned by the external object model
and modelled as the identity. -/
structure Document where
  objects : Doc
  trailer : List (String × Obj)

/-- Embedded `Form::load_doc`: resolve trailer `Root`, its `AcroForm`
reference and the `Fields` array, then run the discovery loop.  The error
mapping follows the source: dictionary lookups and shape checks propagate
the underlying-model error, a missing `AcroForm` target maps to
`NotAReference`, and dereference failures keep their own kinds. -/
def load_doc (document : Document) (fuel : Nat) :
    Option (Except LoadError Form) :=
  match dictGet document.trailer "Root" with
  | none => some (.error .lopdfError)
  | some rootRef =>
      match derefObj rootRef document.objects with
      | .error e => some (.error e)
      | .ok (.dict root) =>
          match dictGet root "AcroForm" with
          | none => some (.error .lopdfError)
          | some (.reference afId) =>
              match docGet document.objects afId with
              | none => some (.error .notAReference)
              | some (.dict acroform) =>
                  match dictGet acroform "Fields" with
                  | none => some (.error .lopdfError)
                  | some (.array fields_list) =>
                      match loadLoop document.objects fields_list [] fuel with
                      | none => none
                      | some (.error e) => some (.error e)
                      | some (.ok ids) => some (.ok ⟨document.objects, ids⟩)
                  | some _ => some (.error .lopdfError)
              | some _ => some (.error .lopdfError)
          | some _ => some (.error .lopdfError)
      | .ok _ => some (.error .lopdfError)

/-- Embedded `Form::len`. -/
def Form.len (f : Form) : Nat :=
  f.form_ids.length

/-- Whether an identity resolves to a dictionary carrying `FT`. -/
def resolvesFT (doc : Doc) (oid : Nat) : Bool :=
  match docGet doc oid with
  | some (.dict d) => (dictGet d "FT").isSome
  | _ => false

mutual
/-- Abstract field hierarchy node: a well-formed form is a forest of field
nodes, each with an object id, a terminal marker (whether the record
carries `FT`) and child nodes. -/
inductive FieldNode where
  | mk (oid : Nat) (hasFT : Bool) (kids : FieldForest)
inductive FieldForest where
  | nil
  | cons (t : FieldNode) (ts : FieldForest)
end

mutual
/-- Number of nodes of a field tree. -/
def sizeT : FieldNode → Nat
  | .mk _ _ kids => 1 + sizeF kids
def sizeF : FieldForest → Nat
  | .nil => 0
  | .cons t ts => sizeT t + sizeF ts
end

mutual
/-- Number of terminal (FT-carrying) nodes of a field tree. -/
def countTermT : FieldNode → Nat
  | .mk _ hasFT kids => (if hasFT then 1 else 0) + countTermF kids
def countTermF : FieldForest → Nat
  | .nil => 0
  | .cons t ts => countTermT t + countTermF ts
end

/-- Reference objects standing for the roots of a forest, in order. -/
def refsOfF : FieldForest → List Obj
  | .nil => []
  | .cons (.mk oid _ _) ts => .reference oid :: refsOfF ts

/-- Whether an object list is exactly the reference list of a forest. -/
def kidsMatch : List Obj → FieldForest → Bool
  | [], .nil => true
  | o :: os, .cons t ts =>
      (match o, t with
       | .reference r, .mk oid _ _ => r == oid
       | _, _ => false) && kidsMatch os ts
  | _, _ => false

/-- Whether a forest is empty. -/
def isNilF : FieldForest → Bool
  | .nil => true
  | .cons _ _ => false

mutual
/-- Whether a document represents a field tree: the node's id resolves to a
dictionary whose `FT` presence matches the terminal marker and whose
`Kids` array (when it is an array) lists exactly the children's
references, recursively. -/
def repTree (doc : Doc) : FieldNode → Bool
  | .mk oid hasFT kids =>
      match docGet doc oid with
      | some (.dict d) =>
          ((dictGet d "FT").isSome == hasFT) &&
          (match dictGet d "Kids" with
           | some (.array ks) => kidsMatch ks kids
           | some _ => isNilF kids
           | none => isNilF kids) &&
          repForest doc kids
      | _ => false
def repForest (doc : Doc) : FieldForest → Bool
  | .nil => true
  | .cons t ts => repTree doc t && repForest doc ts
end

/-- Concatenation of forests. -/
def appendF : FieldForest → FieldForest → FieldForest
  | .nil, g => g
  | .cons t ts, g => .cons t (appendF ts g)

/-! Basic lemmas about the dictionary and object-table operations. -/

theorem dictGet_dictSet_self (d : List (String × Obj)) (k : String) (v : Obj) :
    dictGet (dictSet d k v) k = some v := by
  induction d with
  | nil => simp [dictGet, dictSet]
  | cons kv rest ih =>
      obtain ⟨a, b⟩ := kv
      by_cases h : a = k
      · simp [dictSet, h, dictGet]
      · simp [dictSet, h, dictGet, ih]

theorem dictGet_dictSet_ne (d : List (String × Obj)) (k k' : String) (v : Obj)
    (h : k' ≠ k) : dictGet (dictSet d k v) k' = dictGet d k' := by
  induction d with
  | nil =>
      simp only [dictSet, dictGet]
      rw [if_neg (Ne.symm h)]
  | cons kv rest ih =>
      obtain ⟨a, b⟩ := kv
      by_cases hk : a = k
      · subst hk
        simp only [dictSet, if_pos rfl, dictGet]
        rw [if_neg (fun hh : a = k' => h (hh ▸ rfl)),
            if_neg (fun hh : a = k' => h (hh ▸ rfl))]
      · simp only [dictSet, if_neg hk, dictGet]
        by_cases hk' : a = k'
        · rw [if_pos hk', if_pos hk']
        · rw [if_neg hk', if_neg hk', ih]

theorem dictSet_dictSet_self (d : List (String × Obj)) (k : String) (v w : Obj) :
    dictSet (dictSet d k v) k w = dictSet d k w := by
  induction d with
  | nil => simp [dictSet]
  | cons kv rest ih =>
      obtain ⟨a, b⟩ := kv
      by_cases h : a = k
      · simp [dictSet, h]
      · simp [dictSet, h, ih]

theorem dictSet_overwrite_after (d : List (String × Obj)) (k k' : String)
    (v₀ w v : Obj) (h : k ≠ k') :
    dictSet (dictSet (dictSet d k v₀) k' w) k v = dictSet (dictSet d k v) k' w := by
  induction d with
  | nil => simp [dictSet, h, Ne.symm h]
  | cons kv rest ih =>
      obtain ⟨a, b⟩ := kv
      by_cases hk : a = k
      · subst hk
        simp [dictSet, if_neg (fun hh : a = k' => h (hh ▸ rfl))]
      · by_cases hk' : a = k'
        · subst hk'
          simp [dictSet, hk, if_neg hk, dictSet_dictSet_self]
        · simp [dictSet, hk, hk', ih]

theorem docGet_docSet_self (doc : Doc) (k : Nat) (v x : Obj)
    (h : docGet doc k = some x) : docGet (docSet doc k v) k = some v := by
  induction doc with
  | nil => simp [docGet] at h
  | cons kv rest ih =>
      obtain ⟨a, b⟩ := kv
      by_cases hk : a = k
      · simp [docSet, hk, docGet]
      · simp only [docGet, if_neg hk] at h
        simp [docSet, hk, docGet, ih h]

theorem docGet_docSet_ne (doc : Doc) (k j : Nat) (v : Obj) (h : j ≠ k) :
    docGet (docSet doc k v) j = docGet doc j := by
  induction doc with
  | nil => simp [docGet, docSet]
  | cons kv rest ih =>
      obtain ⟨a, b⟩ := kv
      by_cases hk : a = k
      · subst hk
        simp only [docSet, if_pos rfl, docGet]
        rw [if_neg (fun hh : a = j => h (hh ▸ rfl)),
            if_neg (fun hh : a = j => h (hh ▸ rfl))]
      · simp only [docSet, if_neg hk, docGet]
        by_cases hj : a = j
        · rw [if_pos hj, if_pos hj]
        · rw [if_neg hj, if_neg hj, ih]

theorem docSet_docSet_self (doc : Doc) (k : Nat) (v w : Obj) :
    docSet (docSet doc k v) k w = docSet doc k w := by
  induction doc with
  | nil => simp [docSet]
  | cons kv rest ih =>
      obtain ⟨a, b⟩ := kv
      by_cases h : a = k
      · simp [docSet, h]
      · simp [docSet, h, ih]

theorem docSet_docSet_comm (doc : Doc) (k k' : Nat) (v v' : Obj) (h : k ≠ k') :
    docSet (docSet doc k v) k' v' = docSet (docSet doc k' v') k v := by
  induction doc with
  | nil => simp [docSet]
  | cons kv rest ih =>
      obtain ⟨a, b⟩ := kv
      by_cases hk : a = k
      · subst hk
        simp [docSet, if_neg (fun hh : a = k' => h (hh ▸ rfl))]
      · by_cases hk' : a = k'
        · subst hk'
          simp [docSet, hk, if_neg hk]
        · simp [docSet, hk, hk', ih]

/-! Congruence helpers: the derived field attributes only read specific
keys, so dictionary updates elsewhere do not change them. -/

theorem get_field_flags_congr (d₁ d₂ : List (String × Obj))
    (h : dictGet d₁ "Ff" = dictGet d₂ "Ff") :
    get_field_flags d₁ = get_field_flags d₂ := by
  unfold get_field_flags
  rw [h]

theorem classify_congr (d₁ d₂ : List (String × Obj))
    (hft : dictGet d₁ "FT" = dictGet d₂ "FT")
    (hff : dictGet d₁ "Ff" = dictGet d₂ "Ff") :
    classify d₁ = classify d₂ := by
  unfold classify
  rw [hft, get_field_flags_congr d₁ d₂ hff]

theorem is_read_only_congr (d₁ d₂ : List (String × Obj))
    (h : dictGet d₁ "Ff" = dictGet d₂ "Ff") :
    is_read_only d₁ = is_read_only d₂ := by
  unfold is_read_only
  rw [get_field_flags_congr d₁ d₂ h]

theorem is_required_congr (d₁ d₂ : List (String × Obj))
    (h : dictGet d₁ "Ff" = dictGet d₂ "Ff") :
    is_required d₁ = is_required d₂ := by
  unfold is_required
  rw [get_field_flags_congr d₁ d₂ h]

theorem choiceOptions_congr (d₁ d₂ : List (String × Obj))
    (h : dictGet d₁ "Opt" = dictGet d₂ "Opt") :
    choiceOptions d₁ = choiceOptions d₂ := by
  unfold choiceOptions
  rw [h]

theorem choiceMultiselect_congr (d₁ d₂ : List (String × Obj))
    (h : dictGet d₁ "Ff" = dictGet d₂ "Ff") :
    choiceMultiselect d₁ = choiceMultiselect d₂ := by
  unfold choiceMultiselect
  rw [get_field_flags_congr d₁ d₂ h]

theorem choiceEditable_congr (d₁ d₂ : List (String × Obj))
    (h : dictGet d₁ "Ff" = dictGet d₂ "Ff") :
    choiceEditable d₁ = choiceEditable d₂ := by
  unfold choiceEditable
  rw [get_field_flags_congr d₁ d₂ h]

/-! Claim C5: button classification tie-break. -/

/-- C5: classification of a button-kind record checks radio-ness before
pushbutton-ness before defaulting to checkbox.  For every field record
whose `FT` is the button type code and whose computed flag word is `fl`:
if `fl` intersects `RADIO ||| NO_TOGGLE_TO_OFF` the record classifies as
`Radio` (even when `PUSHBUTTON` is also set, since the first guard does
not exclude it); otherwise if `fl` intersects `PUSHBUTTON` it classifies
as `Button`; otherwise as `CheckBox`. -/
theorem C5_button_classification (field : List (String × Obj)) (fl : Nat)
    (hft : dictGet field "FT" = some (.name "Btn"))
    (hfl : get_field_flags field = some fl) :
    (fl &&& ( RADIO ||| NO_TOGGLE_TO_OFF) ≠ 0 → classify field = some .radio) ∧
    (fl &&& ( RADIO ||| NO_TOGGLE_TO_OFF) = 0 → fl &&& PUSHBUTTON ≠ 0 →
      classify field = some .button) ∧
    (fl &&& ( RADIO ||| NO_TOGGLE_TO_OFF) = 0 → fl &&& PUSHBUTTON = 0 →
      classify field = some .checkBox) := by
  have e1 : buttonFlagsAll &&& ( RADIO ||| NO_TOGGLE_TO_OFF) =
      ( RADIO ||| NO_TOGGLE_TO_OFF) := by decide
  have e2 : buttonFlagsAll &&& PUSHBUTTON = PUSHBUTTON := by decide
  have hcl : classify field =
      some (if fl &&& ( RADIO ||| NO_TOGGLE_TO_OFF) != 0 then .radio
            else if fl &&& PUSHBUTTON != 0 then .button else .checkBox) := by
    unfold classify
    rw [hft, hfl]
    simp only [reduceIte, Option.map_some', Nat.land_assoc, e1, e2]
  refine ⟨fun h => ?_, fun h1 h2 => ?_, fun h1 h2 => ?_⟩
  · rw [hcl, if_pos (by simpa [bne_iff_ne] using h)]
  · rw [hcl, if_neg (by simp [bne_iff_ne, h1]),
        if_pos (by simpa [bne_iff_ne] using h2)]
  · rw [hcl, if_neg (by simp [bne_iff_ne, h1]), if_neg (by simp [bne_iff_ne, h2])]

/-- Concrete button record with `RADIO ||| PUSHBUTTON` flags (0x30000). -/
def btnBothField : List (String × Obj) :=
  [("FT", .name "Btn"), ("Ff", .integer 196608)]

/-- Witness for C5: the record with `RADIO` and `PUSHBUTTON` both set
classifies as `Radio`, not `Button`. -/
theorem C5_button_classification_witness : classify btnBothField = some .radio :=
  (C5_button_classification btnBothField 196608 rfl rfl).1 (by decide)

/-! Claim C2: derivation of the choice-field option list from `Opt`. -/

/-- Per-entry option derivation as the code actually behaves (amended claim
for C2): a nonempty literal string is taken; an array whose element at
index 1 exists and is a nonempty literal string contributes that element;
every other non-panicking entry is skipped (this covers arrays of two or
more elements with a non-literal or empty second element, and all
non-string non-array shapes, and also drops empty literal strings). -/
def amendedOptEntry : Obj → Option String
  | .strLit s => if s.isEmpty then none else some s
  | .array arr =>
      match arr.get? 1 with
      | some (.strLit s) => if s.isEmpty then none else some s
      | _ => none
  | _ => none

/-- Whether an entry is an array with fewer than two elements; such an
entry makes the source panic on the unchecked `arr[1]` indexing. -/
def isShortArray : Obj → Bool
  | .array arr => decide (arr.length < 2)
  | _ => false

/-- Whether some `Opt` entry is a short array. -/
def hasShortArray (options : List Obj) : Bool :=
  options.any isShortArray

/-- Option list as described by the amended C2 claim: panic when any entry
is an array with fewer than two elements, else the per-entry derivation. -/
def amendedOptions (options : List Obj) : Option (List String) :=
  if hasShortArray options then none else some (options.filterMap amendedOptEntry)

/-- Entries the iterator maps through panic exactly on short arrays. -/
theorem optEntryString_none_short (o : Obj) (h : optEntryString o = none) :
    isShortArray o = true := by
  cases o with
  | array arr =>
      simp only [optEntryString] at h
      cases hget : arr.get? 1 with
      | none =>
          have := List.get?_eq_none.mp hget
          simp only [isShortArray, decide_eq_true_eq]
          omega
      | some x => rw [hget] at h; cases x <;> simp at h
  | _ => simp [optEntryString] at h

/-- Entries the iterator maps successfully are not short arrays. -/
theorem optEntryString_some_not_short (o : Obj) (s : String)
    (h : optEntryString o = some s) : isShortArray o = false := by
  cases o with
  | array arr =>
      simp only [optEntryString] at h
      cases hget : arr.get? 1 with
      | none => rw [hget] at h; exact absurd h (by simp)
      | some x =>
          obtain ⟨hw, -⟩ := List.get?_eq_some.mp hget
          simp only [isShortArray, decide_eq_false_iff_not]
          omega
  | _ => rfl

/-- On a successfully mapped entry, the amended per-entry description keeps
the mapped string exactly when it is nonempty. -/
theorem amendedOptEntry_of_some (o : Obj) (s : String)
    (h : optEntryString o = some s) :
    amendedOptEntry o = if s.isEmpty then none else some s := by
  cases o with
  | strLit t =>
      simp only [optEntryString] at h
      injection h with h'
      subst h'
      rfl
  | array arr =>
      simp only [optEntryString] at h
      simp only [amendedOptEntry]
      cases hget : arr.get? 1 with
      | none => rw [hget] at h; exact absurd h (by simp)
      | some x =>
          rw [hget] at h
          cases x with
          | strLit t => injection h with h'; subst h'; rfl
          | _ =>
              injection h with h'
              subst h'
              rfl
  | _ =>
      simp only [optEntryString] at h
      injection h with h'
      subst h'
      rfl

/-- The raw option mapping panics exactly when some entry is a short array. -/
theorem optStringsRaw_none_iff :
    ∀ options, (optStringsRaw options = none ↔ hasShortArray options = true)
  | [] => by simp [optStringsRaw, hasShortArray]
  | o :: rest => by
      have hcons : hasShortArray (o :: rest) =
          (isShortArray o || hasShortArray rest) := by
        unfold hasShortArray
        rw [List.any_cons]
      rw [hcons]
      unfold optStringsRaw
      cases hoe : optEntryString o with
      | none =>
          simp only [Bool.or_eq_true]
          exact ⟨fun _ => Or.inl (optEntryString_none_short o hoe), fun _ => by trivial⟩
      | some s =>
          rw [optEntryString_some_not_short o s hoe, Bool.false_or]
          cases hrest : optStringsRaw rest with
          | none => simp [(optStringsRaw_none_iff rest).mp hrest]
          | some ss =>
              have hns : ¬ hasShortArray rest = true := fun hc => by
                have hh := (optStringsRaw_none_iff rest).mpr hc
                rw [hrest] at hh
                exact Option.noConfusion hh
              simp [hns]

/-- On the non-panicking path, filtering the mapped strings for emptiness
computes the amended per-entry derivation. -/
theorem optStringsRaw_filterMap :
    ∀ options ss, optStringsRaw options = some ss →
      ss.filter (fun x => !x.isEmpty) = options.filterMap amendedOptEntry
  | [], ss, h => by
      simp only [optStringsRaw] at h
      injection h with h'
      subst h'
      rfl
  | o :: rest, ss, h => by
      unfold optStringsRaw at h
      cases hoe : optEntryString o with
      | none => rw [hoe] at h; exact absurd h (by simp)
      | some s =>
          rw [hoe] at h
          cases hrest : optStringsRaw rest with
          | none => rw [hrest] at h; exact absurd h (by simp)
          | some ss' =>
              rw [hrest] at h
              injection h with h'
              subst h'
              rw [List.filterMap_cons, amendedOptEntry_of_some o s hoe,
                  List.filter_cons]
              have ihr := optStringsRaw_filterMap rest ss' hrest
              cases hse : s.isEmpty with
              | true => simp [hse, ihr]
              | false => simp [hse, ihr]

/-- C2 (amended): the option list a choice field derives from its `Opt`
array equals the amended description: literal-string entries are taken
when nonempty, array entries with at least two elements contribute their
second element when it is a nonempty literal string, all other shapes are
skipped, and an array entry with fewer than two elements panics.  (The
claim as stated — every literal string taken directly, only 2-element
arrays contributing, all other shapes skipped without panicking — is
refuted by `C2_options_counterexample`.) -/
theorem C2_options_amended :
    ∀ options, optStrings options = amendedOptions options := by
  intro options
  unfold optStrings amendedOptions
  cases hraw : optStringsRaw options with
  | none =>
      rw [if_pos ((optStringsRaw_none_iff options).mp hraw)]
      rfl
  | some ss =>
      have hns : ¬ hasShortArray options = true := fun hc => by
        have hh := (optStringsRaw_none_iff options).mpr hc
        rw [hraw] at hh
        exact Option.noConfusion hh
      rw [if_neg hns]
      simp only [Option.map_some']
      rw [optStringsRaw_filterMap options ss hraw]

/-- Concrete choice field whose `Opt` holds an empty literal string and a
3-element array with a literal second element. -/
def c2doc : Doc :=
  [(1, .dict [("FT", .name "Ch"),
              ("Opt", .array [.strLit "",
                              .array [.strLit "x", .strLit "b", .strLit "c"]])])]

/-- Concrete form over `c2doc`. -/
def c2form : Form := ⟨c2doc, [1]⟩

/-- Counterexample for C2 as stated: on an `Opt` array holding the empty
literal string and a 3-element array `[x, b, c]`, the claim predicts the
option list `[""]` (take the literal string directly, skip the entry that
is not a 2-element array); the code instead drops the empty string and
takes the second element of the 3-element array, yielding `["b"]`. -/
theorem C2_options_counterexample :
    get_state c2form 0 = some (.listBox [] ["b"] false false false) ∧
    (["b"] : List String) ≠ [""] := by
  exact ⟨rfl, by decide⟩

/-! Claims C6 and C9: checkbox writes and the set-then-read round trip. -/

/-- C6: on a checkbox field, `set_check_box` writes both `V` and `AS` to a
name equal to the field's configured on-value — `get_on_value field`, the
first key of the field's normal-appearance sub-dictionary not equal to
`Off`, defaulting to `Yes` — when checking, and to `Off` when unchecking. -/
theorem C6_set_check_box_on_value (f : Form) (n : Nat) (b : Bool) (oid : Nat)
    (field : List (String × Obj)) (ic ro rq : Bool)
    (hoid : f.form_ids[n]? = some oid)
    (hfld : docGet f.doc oid = some (.dict field))
    (hcl : classify field = some .checkBox)
    (hic : checkbox_checked field = some ic)
    (hro : is_read_only field = some ro)
    (hrq : is_required field = some rq) :
    ∃ g : Form,
      set_check_box f n b = some (.ok g) ∧
      g.form_ids = f.form_ids ∧
      ∃ field', docGet g.doc oid = some (.dict field') ∧
        dictGet field' "V" = some (.name (if b then get_on_value field else "Off")) ∧
        dictGet field' "AS" = some (.name (if b then get_on_value field else "Off")) := by
  have hst : get_state f n = some (.checkBox ic ro rq) := by
    simp only [get_state, hoid, hfld, hcl, hic, hro, hrq]
  refine ⟨⟨docSet f.doc oid (.dict (dictSet (dictSet field "V"
      (.name (if b then get_on_value field else "Off"))) "AS"
      (.name (if b then get_on_value field else "Off")))), f.form_ids⟩, ?_, rfl, ?_⟩
  · simp only [set_check_box, hst, hoid, hfld]
  · refine ⟨_, docGet_docSet_self _ _ _ _ hfld, ?_, dictGet_dictSet_self _ _ _⟩
    rw [dictGet_dictSet_ne _ _ _ _ (by decide), dictGet_dictSet_self]

/-- Concrete checkbox whose normal-appearance keys are `Off` and `X`. -/
def cbxDoc : Doc :=
  [(1, .dict [("FT", .name "Btn"),
              ("AP", .dict [("N", .dict [("Off", .null), ("X", .null)])])])]

/-- Concrete form over `cbxDoc`. -/
def cbxForm : Form := ⟨cbxDoc, [1]⟩

/-- Witness for C6: toggling on the checkbox whose normal-appearance keys
are `Off` and `X` writes `V = AS = Name X`, not `Yes`. -/
theorem C6_set_check_box_on_value_witness :
    ∃ g : Form,
      set_check_box cbxForm 0 true = some (.ok g) ∧
      g.form_ids = cbxForm.form_ids ∧
      ∃ field', docGet g.doc 1 = some (.dict field') ∧
        dictGet field' "V" = some (.name "X") ∧
        dictGet field' "AS" = some (.name "X") := by
  have h := C6_set_check_box_on_value cbxForm 0 true 1
    [("FT", .name "Btn"), ("AP", .dict [("N", .dict [("Off", .null), ("X", .null)])])]
    false false false rfl rfl rfl rfl rfl rfl
  simpa using h

/-- C9: on a checkbox field whose resolved on-value differs from `Yes`,
`set_check_box true` succeeds, yet a subsequent `get_state` reports the
box unchecked, because the state reader compares the stored name against
the literal `Yes`; the full conclusion states the stored check state is
`get_on_value field == Yes`, so the set-then-read round trip holds only
when the on-value is exactly `Yes`. -/
theorem C9_checkbox_roundtrip_only_yes (f : Form) (n : Nat) (oid : Nat)
    (field : List (String × Obj)) (ic ro rq : Bool)
    (hoid : f.form_ids[n]? = some oid)
    (hfld : docGet f.doc oid = some (.dict field))
    (hcl : classify field = some .checkBox)
    (hic : checkbox_checked field = some ic)
    (hro : is_read_only field = some ro)
    (hrq : is_required field = some rq)
    (hon : get_on_value field ≠ "Yes") :
    ∃ g : Form,
      set_check_box f n true = some (.ok g) ∧
      get_state g n = some (.checkBox false ro rq) := by
  have hst : get_state f n = some (.checkBox ic ro rq) := by
    simp only [get_state, hoid, hfld, hcl, hic, hro, hrq]
  set st := Obj.name (get_on_value field) with hstdef
  set D := dictSet (dictSet field "V" st) "AS" st with hDdef
  refine ⟨⟨docSet f.doc oid (.dict D), f.form_ids⟩, ?_, ?_⟩
  · simp only [set_check_box, hst, hoid, hfld, if_true, hstdef, hDdef]
  · have hfld' : docGet (docSet f.doc oid (.dict D)) oid = some (.dict D) :=
      docGet_docSet_self _ _ _ _ hfld
    have hft' : dictGet D "FT" = dictGet field "FT" := by
      rw [hDdef, dictGet_dictSet_ne _ _ _ _ (by decide),
          dictGet_dictSet_ne _ _ _ _ (by decide)]
    have hff' : dictGet D "Ff" = dictGet field "Ff" := by
      rw [hDdef, dictGet_dictSet_ne _ _ _ _ (by decide),
          dictGet_dictSet_ne _ _ _ _ (by decide)]
    have hcl' : classify D = some .checkBox := by
      rw [classify_congr D field hft' hff', hcl]
    have hV' : dictGet D "V" = some st := by
      rw [hDdef, dictGet_dictSet_ne _ _ _ _ (by decide), dictGet_dictSet_self]
    have hic' : checkbox_checked D = some false := by
      unfold checkbox_checked
      rw [hV', hstdef]
      simp only [asNameStr, Option.map_some']
      rw [beq_eq_false_iff_ne.mpr hon]
    have hro' : is_read_only D = some ro := by
      rw [is_read_only_congr D field hff', hro]
    have hrq' : is_required D = some rq := by
      rw [is_required_congr D field hff', hrq]
    simp only [get_state, hoid, hfld', hcl', hic', hro', hrq']

/-- Witness for C9: after checking the `Off`/`X` checkbox, the state reader
reports it unchecked. -/
theorem C9_checkbox_roundtrip_only_yes_witness :
    ∃ g : Form,
      set_check_box cbxForm 0 true = some (.ok g) ∧
      get_state g 0 = some (.checkBox false false false) := by
  exact C9_checkbox_roundtrip_only_yes cbxForm 0 1
    [("FT", .name "Btn"), ("AP", .dict [("N", .dict [("Off", .null), ("X", .null)])])]
    false false false rfl rfl rfl rfl rfl rfl (by decide)

/-! Claims C3 and C10: list-box selection validation and the empty write. -/

/-- Left fold of the membership check used by `set_list_box`, reduced to
`List.all`. -/
theorem foldl_contains_all (opts : List String) :
    ∀ (choices : List String) (b : Bool),
      choices.foldl (fun a h => opts.contains h && a) b =
        (choices.all (fun c => opts.contains c) && b) := by
  intro choices
  induction choices with
  | nil => intro b; simp
  | cons c cs ih =>
      intro b
      rw [List.foldl_cons, ih, List.all_cons]
      cases hc : opts.contains c <;>
        cases ha : cs.all (fun x => opts.contains x) <;> cases b <;> rfl

/-- C3: on a list-box field, `set_list_box` fails with `InvalidSelection`
unless every proposed choice is among the current options; fails with
`TooManySelected` when more than one choice hits a single-select field;
otherwise succeeds, writing `V` as null for zero choices, a literal string
for one, and an array of literal strings for several
(`listBoxValue choices`). -/
theorem C3_set_list_box_validation (f : Form) (n : Nat) (choices : List String)
    (oid : Nat) (field : List (String × Obj)) (opts : List String) (ms ro rq : Bool)
    (hoid : f.form_ids[n]? = some oid)
    (hfld : docGet f.doc oid = some (.dict field))
    (hcl : classify field = some .listBox)
    (hopts : choiceOptions field = some opts)
    (hms : choiceMultiselect field = some ms)
    (hro : is_read_only field = some ro)
    (hrq : is_required field = some rq) :
    (choices.all (fun c => opts.contains c) = false →
      set_list_box f n choices = some (.error .invalidSelection)) ∧
    (choices.all (fun c => opts.contains c) = true → ms = false →
      choices.length > 1 →
      set_list_box f n choices = some (.error .tooManySelected)) ∧
    (choices.all (fun c => opts.contains c) = true →
      (ms = true ∨ choices.length ≤ 1) →
      ∃ g : Form, set_list_box f n choices = some (.ok g) ∧
        g.form_ids = f.form_ids ∧
        ∃ field', docGet g.doc oid = some (.dict field') ∧
          dictGet field' "V" = some (listBoxValue choices)) := by
  have hst : get_state f n =
      some (.listBox (choiceSelected field) opts ms ro rq) := by
    simp only [get_state, hoid, hfld, hcl, hopts, hms, hro, hrq]
  refine ⟨fun hall => ?_, fun hall hmsf hlen => ?_, fun hall hok => ?_⟩
  · simp only [set_list_box, hst, foldl_contains_all, hall, Bool.false_and,
      Bool.false_eq_true, if_false]
  · simp only [set_list_box, hst, foldl_contains_all, hall, Bool.true_and,
      if_true, hmsf, Bool.not_false, decide_eq_true_eq]
    rw [if_pos (by simpa using hlen)]
  · refine ⟨⟨docSet f.doc oid (.dict (dictSet field "V" (listBoxValue choices))),
      f.form_ids⟩, ?_, rfl,
      _, docGet_docSet_self _ _ _ _ hfld, dictGet_dictSet_self _ _ _⟩
    simp only [set_list_box, hst, foldl_contains_all, hall, Bool.true_and, if_true]
    have hcond : (!ms && decide (choices.length > 1)) = false := by
      rcases hok with h | h
      · rw [h]; rfl
      · have : decide (choices.length > 1) = false := by simpa using h
        rw [this, Bool.and_false]
    rw [hcond]
    simp only [Bool.false_eq_true, if_false, hoid, hfld]

/-- Concrete single-select list box with options `A`, `B`, `C`. -/
def lbDoc : Doc :=
  [(1, .dict [("FT", .name "Ch"),
              ("Opt", .array [.strLit "A", .strLit "B", .strLit "C"])])]

/-- Concrete form over `lbDoc`. -/
def lbForm : Form := ⟨lbDoc, [1]⟩

/-- Witness for C3: proposing the non-option `Z` fails with
`InvalidSelection`. -/
theorem C3_set_list_box_validation_witness :
    set_list_box lbForm 0 ["A", "Z"] = some (.error .invalidSelection) :=
  (C3_set_list_box_validation lbForm 0 ["A", "Z"] 1
    [("FT", .name "Ch"), ("Opt", .array [.strLit "A", .strLit "B", .strLit "C"])]
    ["A", "B", "C"] false false false rfl rfl rfl rfl rfl rfl rfl).1 (by decide)

/-- C10: on a list-box field, `set_list_box` with the empty choice list
always succeeds — whatever the multiselect flag and even when the option
list is empty — writing `V` as null, after which `get_state` reports the
empty selection. -/
theorem C10_set_list_box_empty (f : Form) (n : Nat)
    (oid : Nat) (field : List (String × Obj)) (opts : List String) (ms ro rq : Bool)
    (hoid : f.form_ids[n]? = some oid)
    (hfld : docGet f.doc oid = some (.dict field))
    (hcl : classify field = some .listBox)
    (hopts : choiceOptions field = some opts)
    (hms : choiceMultiselect field = some ms)
    (hro : is_read_only field = some ro)
    (hrq : is_required field = some rq) :
    ∃ g : Form, set_list_box f n [] = some (.ok g) ∧
      g.form_ids = f.form_ids ∧
      (∃ field', docGet g.doc oid = some (.dict field') ∧
        dictGet field' "V" = some .null) ∧
      get_state g n = some (.listBox [] opts ms ro rq) := by
  have hst : get_state f n =
      some (.listBox (choiceSelected field) opts ms ro rq) := by
    simp only [get_state, hoid, hfld, hcl, hopts, hms, hro, hrq]
  set D := dictSet field "V" (listBoxValue []) with hDdef
  refine ⟨⟨docSet f.doc oid (.dict D), f.form_ids⟩, ?_, rfl,
    ⟨_, docGet_docSet_self _ _ _ _ hfld, ?_⟩, ?_⟩
  · simp only [set_list_box, hst, List.foldl_nil, if_true, List.length_nil,
      hoid, hfld]
    rw [if_neg (by simp)]
  · rw [hDdef]
    exact dictGet_dictSet_self _ _ _
  · have hfld' : docGet (docSet f.doc oid (.dict D)) oid = some (.dict D) :=
      docGet_docSet_self _ _ _ _ hfld
    have hft' : dictGet D "FT" = dictGet field "FT" :=
      dictGet_dictSet_ne _ _ _ _ (by decide)
    have hff' : dictGet D "Ff" = dictGet field "Ff" :=
      dictGet_dictSet_ne _ _ _ _ (by decide)
    have hopt' : dictGet D "Opt" = dictGet field "Opt" :=
      dictGet_dictSet_ne _ _ _ _ (by decide)
    have hV' : dictGet D "V" = some .null := dictGet_dictSet_self _ _ _
    have hcl' : classify D = some .listBox := by
      rw [classify_congr D field hft' hff', hcl]
    have hopts' : choiceOptions D = some opts := by
      rw [choiceOptions_congr D field hopt', hopts]
    have hms' : choiceMultiselect D = some ms := by
      rw [choiceMultiselect_congr D field hff', hms]
    have hro' : is_read_only D = some ro := by
      rw [is_read_only_congr D field hff', hro]
    have hrq' : is_required D = some rq := by
      rw [is_required_congr D field hff', hrq]
    have hsel' : choiceSelected D = [] := by
      unfold choiceSelected
      rw [hV']
    simp only [get_state, hoid, hfld', hcl', hopts', hms', hro', hrq', hsel']

/-- Concrete single-select list box with no `Opt` entry at all. -/
def lbEmptyDoc : Doc := [(1, .dict [("FT", .name "Ch")])]

/-- Concrete form over `lbEmptyDoc`. -/
def lbEmptyForm : Form := ⟨lbEmptyDoc, [1]⟩

/-- Witness for C10: clearing the selection of the option-less single-select
list box succeeds, writes null, and reads back empty. -/
theorem C10_set_list_box_empty_witness :
    ∃ g : Form, set_list_box lbEmptyForm 0 [] = some (.ok g) ∧
      g.form_ids = lbEmptyForm.form_ids ∧
      (∃ field', docGet g.doc 1 = some (.dict field') ∧
        dictGet field' "V" = some .null) ∧
      get_state g 0 = some (.listBox [] [] false false false) :=
  C10_set_list_box_empty lbEmptyForm 0 1 [("FT", .name "Ch")] [] false false false
    rfl rfl rfl rfl rfl rfl rfl

/-! Claim C7: radio options, one per child widget, with index fallback. -/

/-- Option name of a child widget as the specification describes it: the
first key of the resolved child's normal-appearance sub-dictionary that is
not the literal `Off`, or, when no such key exists (or the appearance
chain is missing), the child's zero-based position rendered as a string.
Unresolvable children take the fallback here; the code panics on them, so
the two definitions are compared only on non-panicking runs. -/
def describedKid (doc : Doc) (i : Nat) (kid : Obj) : String :=
  match kid with
  | .reference koid =>
      match docGet doc koid with
      | some (.dict kd) =>
          match dictGet kd "AP" with
          | some (.dict appearance_states) =>
              match dictGet appearance_states "N" with
              | some (.dict normal_appearance) =>
                  match normal_appearance.find? (fun kv => kv.1 != "Off") with
                  | some kv => kv.1
                  | none => toString i
              | _ => toString i
          | _ => toString i
      | _ => toString i
  | _ => toString i

/-- One described option per child, in order, indices counting from `i`. -/
def describedOptions (doc : Doc) : List Obj → Nat → List String
  | [], _ => []
  | kid :: rest, i => describedKid doc i kid :: describedOptions doc rest (i + 1)

/-- A non-panicking `kidOption` computes the described option name. -/
theorem kidOption_described (doc : Doc) (i : Nat) (kid : Obj) (s : String)
    (h : kidOption doc i kid = some s) : s = describedKid doc i kid := by
  cases kid with
  | reference koid =>
      simp only [kidOption] at h
      simp only [describedKid]
      cases hk : docGet doc koid with
      | none => rw [hk] at h; exact absurd h (by simp)
      | some o =>
          rw [hk] at h
          cases o with
          | dict kd => injection h with h'; rw [h']
          | _ => exact absurd h (by simp)
  | _ => unfold kidOption at h; exact absurd h (by simp)

/-- A non-panicking possibilities loop yields exactly the described options,
hence one option per child. -/
theorem possLoop_described (doc : Doc) :
    ∀ (kids : List Obj) (i : Nat) (opts : List String),
      possLoop doc kids i = some opts →
      opts = describedOptions doc kids i ∧ opts.length = kids.length
  | [], i, opts, h => by
      simp only [possLoop] at h
      injection h with h'
      subst h'
      exact ⟨rfl, rfl⟩
  | kid :: rest, i, opts, h => by
      unfold possLoop at h
      cases hko : kidOption doc i kid with
      | none => rw [hko] at h; exact absurd h (by simp)
      | some s =>
          rw [hko] at h
          cases hrest : possLoop doc rest (i + 1) with
          | none => rw [hrest] at h; exact absurd h (by simp)
          | some tail =>
              rw [hrest] at h
              injection h with h'
              subst h'
              obtain ⟨h1, h2⟩ := possLoop_described doc rest (i + 1) tail hrest
              refine ⟨?_, by simp [h2]⟩
              rw [describedOptions, ← kidOption_described doc i kid s hko, ← h1]

/-- C7: on a radio field with a `Kids` array, the options `get_state`
returns contain exactly one entry per child widget, in order: for each
child the first non-`Off` key of its normal-appearance sub-dictionary,
else the child's zero-based position stringified; in particular their
number always equals the number of children. -/
theorem C7_radio_options (f : Form) (n : Nat) (oid : Nat)
    (field : List (String × Obj)) (sel : String) (ro rq : Bool)
    (kids : List Obj) (opts : List String)
    (hoid : f.form_ids[n]? = some oid)
    (hfld : docGet f.doc oid = some (.dict field))
    (hcl : classify field = some .radio)
    (hsel : radioSelected field = some sel)
    (hro : is_read_only field = some ro)
    (hrq : is_required field = some rq)
    (hkids : dictGet field "Kids" = some (.array kids))
    (hposs : get_possibilities f.doc oid = some opts) :
    get_state f n = some (.radio sel opts ro rq) ∧
    opts.length = kids.length ∧
    opts = describedOptions f.doc kids 0 := by
  have hloop : possLoop f.doc kids 0 = some opts := by
    simp only [get_possibilities, hfld, hkids] at hposs
    exact hposs
  obtain ⟨h1, h2⟩ := possLoop_described f.doc kids 0 opts hloop
  refine ⟨?_, h2, h1⟩
  simp only [get_state, hoid, hfld, hcl, hsel, hposs, hro, hrq]

/-- Concrete radio group: one child with normal-appearance keys `Off`, `A`,
and one child with no appearance dictionary at all. -/
def radioDoc : Doc :=
  [(1, .dict [("FT", .name "Btn"), ("Ff", .integer 65536),
              ("Kids", .array [.reference 2, .reference 3])]),
   (2, .dict [("AP", .dict [("N", .dict [("Off", .null), ("A", .null)])])]),
   (3, .dict [])]

/-- Concrete form over `radioDoc`. -/
def radioForm : Form := ⟨radioDoc, [1]⟩

/-- Witness for C7: the two-child radio group yields the options `A` (first
non-`Off` appearance key) and `1` (position fallback), one per child. -/
theorem C7_radio_options_witness :
    get_state radioForm 0 = some (.radio "" ["A", "1"] false false) ∧
    (["A", "1"] : List String).length =
      ([.reference 2, .reference 3] : List Obj).length ∧
    (["A", "1"] : List String) = describedOptions radioForm.doc
      [.reference 2, .reference 3] 0 :=
  C7_radio_options radioForm 0 1
    [("FT", .name "Btn"), ("Ff", .integer 65536),
     ("Kids", .array [.reference 2, .reference 3])]
    "" false false [.reference 2, .reference 3] ["A", "1"]
    rfl rfl rfl rfl rfl rfl rfl rfl

/-! Claim C4: text writes commit and survive regeneration failure. -/

/-- A successful appearance regeneration only rewrites the stream object it
located: the field list is unchanged and every id resolving to a
dictionary still resolves to the same dictionary. -/
theorem regen_ok_preserves (f : Form) (n : Nat) (g : Form)
    (h : regenerate_text_appearance f n = some (.ok g)) :
    g.form_ids = f.form_ids ∧
    ∀ j d, docGet f.doc j = some (.dict d) → docGet g.doc j = some (.dict d) := by
  unfold regenerate_text_appearance at h
  cases hid : f.form_ids[n]? with
  | none => rw [hid] at h; exact absurd h (by simp)
  | some oid =>
  rw [hid] at h
  simp only [] at h
  cases hf : docGet f.doc oid with
  | none => rw [hf] at h; exact absurd h (by simp)
  | some o =>
  rw [hf] at h
  cases o
  case dict field =>
    simp only [] at h
    cases hV : dictGet field "V" with
    | none => rw [hV] at h; exact absurd h (by simp)
    | some value =>
    rw [hV] at h
    cases hDA : dictGet field "DA" with
    | none => rw [hDA] at h; exact absurd h (by simp)
    | some da =>
    rw [hDA] at h
    cases hR : dictGet field "Rect" with
    | none => rw [hR] at h; exact absurd h (by simp)
    | some rectObj =>
    rw [hR] at h
    simp only [] at h
    cases rectObj
    case array rectArr =>
      simp only [] at h
      cases hAP : dictGet field "AP" with
      | none => rw [hAP] at h; exact absurd h (by simp)
      | some ap =>
      rw [hAP] at h
      cases ap
      case dict apDict =>
        simp only [] at h
        cases hN : dictGet apDict "N" with
        | none => rw [hN] at h; exact absurd h (by simp)
        | some nref =>
        rw [hN] at h
        cases nref
        case reference object_id =>
          simp only [] at h
          cases hS : docGet f.doc object_id with
          | none => rw [hS] at h; exact absurd h (by simp)
          | some so =>
          rw [hS] at h
          cases so
          case stream sdict ops =>
            simp only [] at h
            cases h3 : (rectArr.map (fun o =>
                match o with | Obj.integer i => i | _ => 0)).get? 3 with
            | none => rw [h3] at h; exact absurd h (by simp)
            | some r3 =>
            rw [h3] at h
            cases h1 : (rectArr.map (fun o =>
                match o with | Obj.integer i => i | _ => 0)).get? 1 with
            | none => rw [h1] at h; exact absurd h (by simp)
            | some r1 =>
            rw [h1] at h
            simp only [Option.some.injEq, Except.ok.injEq] at h
            subst h
            refine ⟨rfl, fun j d hj => ?_⟩
            by_cases hje : j = object_id
            · subst hje
              rw [hj] at hS
              exact absurd hS (by simp)
            · rw [docGet_docSet_ne _ _ _ _ hje]
              exact hj
          all_goals exact absurd h (by simp)
        all_goals exact absurd h (by simp)
      all_goals exact absurd h (by simp)
    all_goals exact absurd h (by simp)
  all_goals exact absurd h (by simp)

/-- C4 (amended): on a text field, whenever `set_text` returns at all —
its appearance regeneration can panic, e.g. on a `Rect` array with fewer
than four elements, which refutes the unconditional claim
(`C4_set_text_counterexample`) — it returns `Ok`, commits the new literal
string to `V` without any rollback on a regeneration error, and a
subsequent `get_state` yields the `Text` state with exactly that
string. -/
theorem C4_set_text_roundtrip (f : Form) (n : Nat) (s : String) (oid : Nat)
    (field : List (String × Obj)) (ro rq : Bool)
    (hoid : f.form_ids[n]? = some oid)
    (hfld : docGet f.doc oid = some (.dict field))
    (hcl : classify field = some .text)
    (hro : is_read_only field = some ro)
    (hrq : is_required field = some rq)
    (hret : set_text f n s ≠ none) :
    ∃ g : Form, set_text f n s = some (.ok g) ∧
      g.form_ids = f.form_ids ∧
      (∃ field', docGet g.doc oid = some (.dict field') ∧
        dictGet field' "V" = some (.strLit s)) ∧
      get_state g n = some (.text s ro rq) := by
  have hst : get_state f n = some (.text (textValue field) ro rq) := by
    simp only [get_state, hoid, hfld, hcl, hro, hrq]
  set D := dictSet field "V" (.strLit s) with hDdef
  set f' : Form := ⟨docSet f.doc oid (.dict D), f.form_ids⟩ with hfprime
  have hstep : set_text f n s =
      (match regenerate_text_appearance f' n with
       | none => none
       | some (.ok g) => some (.ok g)
       | some (.error _) => some (.ok f')) := by
    simp only [set_text, hst, hoid, hfld]
  have hVD : dictGet D "V" = some (.strLit s) := by
    rw [hDdef]; exact dictGet_dictSet_self _ _ _
  have hgen : ∀ g : Form, g.form_ids = f.form_ids →
      docGet g.doc oid = some (.dict D) →
      get_state g n = some (.text s ro rq) := by
    intro g hgi hgd
    have hoid' : g.form_ids[n]? = some oid := by rw [hgi]; exact hoid
    have hft' : dictGet D "FT" = dictGet field "FT" := by
      rw [hDdef]; exact dictGet_dictSet_ne _ _ _ _ (by decide)
    have hff' : dictGet D "Ff" = dictGet field "Ff" := by
      rw [hDdef]; exact dictGet_dictSet_ne _ _ _ _ (by decide)
    have hcl' : classify D = some .text := by
      rw [classify_congr D field hft' hff', hcl]
    have htv' : textValue D = s := by
      unfold textValue
      rw [hVD]
    have hro' : is_read_only D = some ro := by
      rw [is_read_only_congr D field hff', hro]
    have hrq' : is_required D = some rq := by
      rw [is_required_congr D field hff', hrq]
    simp only [get_state, hoid', hgd, hcl', hro', hrq', htv']
  have hfd' : docGet f'.doc oid = some (.dict D) := by
    rw [hfprime]
    exact docGet_docSet_self _ _ _ _ hfld
  cases hr : regenerate_text_appearance f' n with
  | none =>
      rw [hr] at hstep
      exact absurd hstep hret
  | some r =>
      cases r with
      | error e =>
          rw [hr] at hstep
          exact ⟨f', hstep, rfl, ⟨D, hfd', hVD⟩, hgen f' rfl hfd'⟩
      | ok g =>
          rw [hr] at hstep
          obtain ⟨hgi, hpres⟩ := regen_ok_preserves f' n g hr
          have hgd : docGet g.doc oid = some (.dict D) := hpres oid D hfd'
          exact ⟨g, hstep, hgi, ⟨D, hgd, hVD⟩, hgen g hgi hgd⟩

/-- Concrete text field whose `Rect` is an empty array while `V`, `DA` and
the `AP` normal stream are all present: regeneration indexes `rect[3]`
and panics. -/
def txPanicDoc : Doc :=
  [(1, .dict [("FT", .name "Tx"), ("DA", .strLit "da"),
              ("Rect", .array []), ("AP", .dict [("N", .reference 2)])]),
   (2, .stream [] [])]

/-- Concrete form over `txPanicDoc`. -/
def txPanicForm : Form := ⟨txPanicDoc, [1]⟩

/-- Counterexample for C4 as stated: `txPanicForm` holds a text field (its
state reads back as `Text`), yet `set_text` does not succeed on it — the
appearance regeneration panics on the malformed `Rect`, modelled as
`none`. -/
theorem C4_set_text_counterexample :
    get_state txPanicForm 0 = some (.text "" false false) ∧
    set_text txPanicForm 0 "hello" = none := by
  exact ⟨rfl, rfl⟩

/-- Concrete well-formed text field: regeneration fails early (no `AP`), so
the write is committed and the error swallowed. -/
def txDoc : Doc :=
  [(1, .dict [("FT", .name "Tx")])]

/-- Concrete form over `txDoc`. -/
def txForm : Form := ⟨txDoc, [1]⟩

/-- Witness for the amended C4: on the plain text field the write commits
and reads back. -/
theorem C4_set_text_roundtrip_witness :
    ∃ g : Form, set_text txForm 0 "hello" = some (.ok g) ∧
      g.form_ids = txForm.form_ids ∧
      (∃ field', docGet g.doc 1 = some (.dict field') ∧
        dictGet field' "V" = some (.strLit "hello")) ∧
      get_state g 0 = some (.text "hello" false false) :=
  C4_set_text_roundtrip txForm 0 "hello" 1 [("FT", .name "Tx")] false false
    rfl rfl rfl rfl rfl (by
      have hv : set_text txForm 0 "hello" =
          some (.ok ⟨[(1, .dict [("FT", .name "Tx"), ("V", .strLit "hello")])],
            [1]⟩) := rfl
      rw [hv]
      simp)

/-! Claim C1: breadth-first field discovery. -/

/-- An empty forest is recognized by `isNilF`. -/
theorem isNilF_eq_nil (F : FieldForest) (h : isNilF F = true) : F = .nil := by
  cases F with
  | nil => rfl
  | cons t ts => simp [isNilF] at h

/-- A matching reference list is exactly the forest's reference list. -/
theorem kidsMatch_refs : ∀ (ks : List Obj) (F : FieldForest),
    kidsMatch ks F = true → ks = refsOfF F
  | [], .nil, _ => rfl
  | [], .cons _ _, h => by simp [kidsMatch] at h
  | _ :: _, .nil, h => by simp [kidsMatch] at h
  | o :: os, .cons t ts, h => by
      cases t with
      | mk oid hasFT kids =>
          cases o
          case reference r =>
            simp only [kidsMatch, Bool.and_eq_true] at h
            obtain ⟨h1, h2⟩ := h
            have hr : r = oid := by simpa using h1
            rw [refsOfF, hr, kidsMatch_refs os ts h2]
          all_goals simp [kidsMatch] at h

/-- Size distributes over forest concatenation. -/
theorem sizeF_append : ∀ (a b : FieldForest),
    sizeF (appendF a b) = sizeF a + sizeF b
  | .nil, b => by simp [appendF, sizeF]
  | .cons t ts, b => by
      simp only [appendF, sizeF, sizeF_append ts b]
      omega

/-- Terminal count distributes over forest concatenation. -/
theorem countTermF_append : ∀ (a b : FieldForest),
    countTermF (appendF a b) = countTermF a + countTermF b
  | .nil, b => by simp [appendF, countTermF]
  | .cons t ts, b => by
      simp only [appendF, countTermF, countTermF_append ts b]
      omega

/-- Reference lists concatenate over forest concatenation. -/
theorem refsOfF_append : ∀ (a b : FieldForest),
    refsOfF (appendF a b) = refsOfF a ++ refsOfF b
  | .nil, b => by simp [appendF, refsOfF]
  | .cons (.mk oid hasFT kids) ts, b => by
      simp [appendF, refsOfF, refsOfF_append ts b]

/-- Concatenating the empty forest is the identity. -/
theorem appendF_nil : ∀ (a : FieldForest), appendF a .nil = a
  | .nil => rfl
  | .cons t ts => by rw [appendF, appendF_nil ts]

/-- Representation is preserved by forest concatenation. -/
theorem repForest_append (doc : Doc) : ∀ (a b : FieldForest),
    repForest doc a = true → repForest doc b = true →
    repForest doc (appendF a b) = true
  | .nil, b, _, hb => hb
  | .cons t ts, b, ha, hb => by
      simp only [repForest, Bool.and_eq_true] at ha
      simp only [appendF, repForest, Bool.and_eq_true]
      exact ⟨ha.1, repForest_append doc ts b ha.2 hb⟩

/-- Master invariant of the discovery loop: run on the reference list of a
represented forest with enough fuel, it emits, after the accumulator, one
identity per terminal node in breadth-first order; each emitted identity
resolves to a dictionary carrying `FT`. -/
theorem loadLoop_rep (doc : Doc) :
    ∀ (bound : Nat) (F : FieldForest) (acc : List Nat) (k : Nat),
      sizeF F ≤ bound → repForest doc F = true →
      ∃ out, loadLoop doc (refsOfF F) acc (sizeF F + k) = some (.ok (acc ++ out)) ∧
        out.length = countTermF F ∧
        out.all (fun oid => resolvesFT doc oid) = true := by
  intro bound
  induction bound with
  | zero =>
      intro F acc k hs _
      cases F with
      | nil => exact ⟨[], by simp [refsOfF, sizeF, loadLoop], rfl, rfl⟩
      | cons t ts =>
          cases t with
          | mk oid hasFT kids =>
              exfalso
              simp only [sizeF, sizeT] at hs
              omega
  | succ b ih =>
      intro F acc k hs hr
      cases F with
      | nil => exact ⟨[], by simp [refsOfF, sizeF, loadLoop], rfl, rfl⟩
      | cons t ts =>
          cases t with
          | mk oid hasFT kids =>
          simp only [repForest, Bool.and_eq_true] at hr
          obtain ⟨hrt, hrts⟩ := hr
          simp only [repTree] at hrt
          cases hd : docGet doc oid with
          | none => rw [hd] at hrt; exact absurd hrt (by simp)
          | some o =>
          rw [hd] at hrt
          cases o
          case dict d =>
            simp only [Bool.and_eq_true] at hrt
            obtain ⟨⟨hFT, hK⟩, hrk⟩ := hrt
            have hFT' : (dictGet d "FT").isSome = hasFT := by
              exact eq_of_beq hFT
            have hsz : sizeF (FieldForest.cons (.mk oid hasFT kids) ts) + k =
                (sizeF (appendF ts kids) + k) + 1 := by
              rw [sizeF_append]
              simp only [sizeF, sizeT]
              omega
            have hrapp : repForest doc (appendF ts kids) = true :=
              repForest_append doc ts kids hrts hrk
            have hsz' : sizeF (appendF ts kids) ≤ b := by
              rw [sizeF_append]
              simp only [sizeF, sizeT] at hs
              omega
            have hqueue :
                (match dictGet d "Kids" with
                 | some (.array kids') => refsOfF ts ++ kids'
                 | _ => refsOfF ts) = refsOfF (appendF ts kids) := by
              cases hkd : dictGet d "Kids" with
              | none =>
                  rw [hkd] at hK
                  rw [isNilF_eq_nil kids hK, appendF_nil]
              | some ko =>
                  rw [hkd] at hK
                  cases ko
                  case array ks =>
                    rw [refsOfF_append, kidsMatch_refs ks kids hK]
                  all_goals
                    rw [isNilF_eq_nil kids hK, appendF_nil]
            obtain ⟨out', hloop, hlen, hall⟩ :=
              ih (appendF ts kids) (if hasFT then acc ++ [oid] else acc) k hsz' hrapp
            refine ⟨(if hasFT then [oid] else []) ++ out', ?_, ?_, ?_⟩
            · rw [hsz]
              simp only [refsOfF, loadLoop, derefObj, hd, refId, hFT']
              rw [hqueue]
              cases hasFT with
              | true =>
                  rw [if_pos rfl] at hloop
                  simpa [List.append_assoc] using hloop
              | false =>
                  simp only [Bool.false_eq_true, if_false] at hloop
                  simpa using hloop
            · rw [List.length_append, hlen, countTermF_append]
              simp only [countTermF, countTermT]
              cases hasFT <;> (simp; try omega)
            · rw [List.all_append, hall, Bool.and_true]
              cases hasFT with
              | true => simp [resolvesFT, hd, hFT']
              | false => simp
          all_goals exact absurd hrt (by simp)

/-- C1: field discovery is a breadth-first traversal seeded with the
AcroForm's `Fields` array (see `loadLoop` for the dequeue step: a resolved
dictionary is appended to the result exactly when it carries `FT`, and the
entries of its `Kids` array are enqueued whether or not it was terminal);
consequently, on a well-formed form — a document representing a field
forest — `load_doc` succeeds, `len` equals the number of terminal nodes
however deep they nest, and every collected identity resolves to a
dictionary carrying `FT`. -/
theorem C1_load_discovery (document : Document) (rootId afId : Nat)
    (root acroform : List (String × Obj)) (F : FieldForest)
    (h1 : dictGet document.trailer "Root" = some (.reference rootId))
    (h2 : docGet document.objects rootId = some (.dict root))
    (h3 : dictGet root "AcroForm" = some (.reference afId))
    (h4 : docGet document.objects afId = some (.dict acroform))
    (h5 : dictGet acroform "Fields" = some (.array (refsOfF F)))
    (h6 : repForest document.objects F = true) :
    ∃ g : Form, load_doc document (sizeF F) = some (.ok g) ∧
      g.doc = document.objects ∧
      g.len = countTermF F ∧
      g.form_ids.all (fun oid => resolvesFT document.objects oid) = true := by
  obtain ⟨out, hloop, hlen, hall⟩ :=
    loadLoop_rep document.objects (sizeF F) F [] 0 (Nat.le_refl _) h6
  rw [Nat.add_zero] at hloop
  simp only [List.nil_append] at hloop
  refine ⟨⟨document.objects, out⟩, ?_, rfl, ?_, hall⟩
  · simp only [load_doc, h1, derefObj, h2, h3, h4, h5, hloop]
  · simpa [Form.len] using hlen

/-- Concrete nested form: two root entries, the second a non-terminal
grouping node whose kid is a terminal field at depth two. -/
def bfsForest : FieldForest :=
  .cons (.mk 1 true .nil)
    (.cons (.mk 2 false (.cons (.mk 3 true .nil) .nil)) .nil)

/-- Concrete document carrying `bfsForest` under its AcroForm. -/
def bfsDocument : Document :=
  { objects :=
      [(10, .dict [("AcroForm", .reference 11)]),
       (11, .dict [("Fields", .array [.reference 1, .reference 2])]),
       (1, .dict [("FT", .name "Tx")]),
       (2, .dict [("Kids", .array [.reference 3])]),
       (3, .dict [("FT", .name "Btn")])],
    trailer := [("Root", .reference 10)] }

/-- Witness for C1: loading the nested document finds both terminal fields,
at depths one and two, and skips the grouping node. -/
theorem C1_load_discovery_witness :
    ∃ g : Form, load_doc bfsDocument (sizeF bfsForest) = some (.ok g) ∧
      g.doc = bfsDocument.objects ∧
      g.len = countTermF bfsForest ∧
      g.form_ids.all (fun oid => resolvesFT bfsDocument.objects oid) = true :=
  C1_load_discovery bfsDocument 10 11
    [("AcroForm", .reference 11)]
    [("Fields", .array [.reference 1, .reference 2])]
    bfsForest rfl rfl rfl rfl rfl rfl

/-! Claim C8: the readonly behavior flag is never enforced. -/

/-- Bitwise intersection with an even mask ignores bit 0. -/
theorem land_of_div2 (v₁ v₂ m : Nat) (h : v₁ / 2 = v₂ / 2) (hm : m % 2 = 0) :
    v₁ &&& m = v₂ &&& m := by
  apply Nat.eq_of_testBit_eq
  intro i
  cases i with
  | zero =>
      rw [Nat.testBit_land, Nat.testBit_land, Nat.testBit_zero m]
      have : decide (m % 2 = 1) = false := by simp [hm]
      rw [this, Bool.and_false, Bool.and_false]
  | succ j =>
      rw [Nat.testBit_land, Nat.testBit_land, Nat.testBit_succ v₁ j,
          Nat.testBit_succ v₂ j, h]

/-- The computed u32 flag words of `2k+1` and `2k` agree above bit 0. -/
theorem flags_div2 (k : Nat) :
    ((Int.ofNat (2 * k + 1) % 4294967296).toNat) / 2 =
    ((Int.ofNat (2 * k) % 4294967296).toNat) / 2 := by
  show ((((2 * k + 1 : Nat) : Int)) % 4294967296).toNat / 2 =
    ((((2 * k : Nat) : Int)) % 4294967296).toNat / 2
  omega

/-- Reading `Ff` after setting it yields the set value's u32 cast. -/
theorem get_field_flags_dictSet (D : List (String × Obj)) (v : Int) :
    get_field_flags (dictSet D "Ff" (.integer v)) = some ((v % 4294967296).toNat) := by
  unfold get_field_flags
  rw [dictGet_dictSet_self]

/-- Classification ignores bit 0 of the flag word: every mask it intersects
with is even. -/
theorem classify_dictSet_ff (D : List (String × Obj)) (v₁ v₂ : Int)
    (hdiv : ((v₁ % 4294967296).toNat) / 2 = ((v₂ % 4294967296).toNat) / 2) :
    classify (dictSet D "Ff" (.integer v₁)) =
    classify (dictSet D "Ff" (.integer v₂)) := by
  have hft : dictGet (dictSet D "Ff" (.integer v₁)) "FT" =
      dictGet (dictSet D "Ff" (.integer v₂)) "FT" := by
    rw [dictGet_dictSet_ne _ _ _ _ (by decide), dictGet_dictSet_ne _ _ _ _ (by decide)]
  unfold classify
  rw [hft, get_field_flags_dictSet, get_field_flags_dictSet]
  set fl₁ := ((v₁ % 4294967296).toNat) with hfl1
  set fl₂ := ((v₂ % 4294967296).toNat) with hfl2
  have hbtn : (fl₁ &&& buttonFlagsAll) &&& ( RADIO ||| NO_TOGGLE_TO_OFF) =
      (fl₂ &&& buttonFlagsAll) &&& ( RADIO ||| NO_TOGGLE_TO_OFF) := by
    rw [Nat.land_assoc, Nat.land_assoc]
    exact land_of_div2 fl₁ fl₂ _ hdiv (by decide)
  have hpush : (fl₁ &&& buttonFlagsAll) &&& PUSHBUTTON =
      (fl₂ &&& buttonFlagsAll) &&& PUSHBUTTON := by
    rw [Nat.land_assoc, Nat.land_assoc]
    exact land_of_div2 fl₁ fl₂ _ hdiv (by decide)
  have hcombo : (fl₁ &&& choiceFlagsAll) &&& COBMO =
      (fl₂ &&& choiceFlagsAll) &&& COBMO := by
    rw [Nat.land_assoc, Nat.land_assoc]
    exact land_of_div2 fl₁ fl₂ _ hdiv (by decide)
  cases dictGet (dictSet D "Ff" (.integer v₂)) "FT" with
  | none => rfl
  | some o =>
      cases o
      case name t =>
        simp only []
        by_cases hb : t = "Btn"
        · rw [if_pos hb, if_pos hb]
          simp only [Option.map_some', hbtn, hpush]
        · rw [if_neg hb, if_neg hb]
          by_cases hc : t = "Ch"
          · rw [if_pos hc, if_pos hc]
            simp only [Option.map_some', hcombo]
          · rw [if_neg hc, if_neg hc]
      all_goals rfl

/-- Requiredness ignores bit 0 of the flag word. -/
theorem is_required_dictSet_ff (D : List (String × Obj)) (v₁ v₂ : Int)
    (hdiv : ((v₁ % 4294967296).toNat) / 2 = ((v₂ % 4294967296).toNat) / 2) :
    is_required (dictSet D "Ff" (.integer v₁)) =
    is_required (dictSet D "Ff" (.integer v₂)) := by
  unfold is_required
  rw [get_field_flags_dictSet, get_field_flags_dictSet]
  simp only [Option.map_some']
  have h : ((v₁ % 4294967296).toNat &&& fieldFlagsAll) &&& REQUIRED =
      ((v₂ % 4294967296).toNat &&& fieldFlagsAll) &&& REQUIRED := by
    rw [Nat.land_assoc, Nat.land_assoc]
    exact land_of_div2 _ _ _ hdiv (by decide)
  rw [h]

/-- The multiselect flag ignores bit 0 of the flag word. -/
theorem choiceMultiselect_dictSet_ff (D : List (String × Obj)) (v₁ v₂ : Int)
    (hdiv : ((v₁ % 4294967296).toNat) / 2 = ((v₂ % 4294967296).toNat) / 2) :
    choiceMultiselect (dictSet D "Ff" (.integer v₁)) =
    choiceMultiselect (dictSet D "Ff" (.integer v₂)) := by
  unfold choiceMultiselect
  rw [get_field_flags_dictSet, get_field_flags_dictSet]
  simp only [Option.map_some']
  have h : ((v₁ % 4294967296).toNat &&& choiceFlagsAll) &&& MULTISELECT =
      ((v₂ % 4294967296).toNat &&& choiceFlagsAll) &&& MULTISELECT := by
    rw [Nat.land_assoc, Nat.land_assoc]
    exact land_of_div2 _ _ _ hdiv (by decide)
  rw [h]

/-- The editable flag ignores bit 0 of the flag word. -/
theorem choiceEditable_dictSet_ff (D : List (String × Obj)) (v₁ v₂ : Int)
    (hdiv : ((v₁ % 4294967296).toNat) / 2 = ((v₂ % 4294967296).toNat) / 2) :
    choiceEditable (dictSet D "Ff" (.integer v₁)) =
    choiceEditable (dictSet D "Ff" (.integer v₂)) := by
  unfold choiceEditable
  rw [get_field_flags_dictSet, get_field_flags_dictSet]
  simp only [Option.map_some']
  have h : ((v₁ % 4294967296).toNat &&& choiceFlagsAll) &&& EDIT =
      ((v₂ % 4294967296).toNat &&& choiceFlagsAll) &&& EDIT := by
    rw [Nat.land_assoc, Nat.land_assoc]
    exact land_of_div2 _ _ _ hdiv (by decide)
  rw [h]

/-- The on-value only reads `AP`. -/
theorem get_on_value_congr (d₁ d₂ : List (String × Obj))
    (h : dictGet d₁ "AP" = dictGet d₂ "AP") :
    get_on_value d₁ = get_on_value d₂ := by
  unfold get_on_value
  rw [h]

/-- The radio selection only reads `V` and `AS`. -/
theorem radioSelected_congr (d₁ d₂ : List (String × Obj))
    (hV : dictGet d₁ "V" = dictGet d₂ "V")
    (hAS : dictGet d₁ "AS" = dictGet d₂ "AS") :
    radioSelected d₁ = radioSelected d₂ := by
  unfold radioSelected
  rw [hV, hAS]

/-- The checkbox state only reads `V` and `AS`. -/
theorem checkbox_checked_congr (d₁ d₂ : List (String × Obj))
    (hV : dictGet d₁ "V" = dictGet d₂ "V")
    (hAS : dictGet d₁ "AS" = dictGet d₂ "AS") :
    checkbox_checked d₁ = checkbox_checked d₂ := by
  unfold checkbox_checked
  rw [hV, hAS]

/-- The choice selection only reads `V`. -/
theorem choiceSelected_congr (d₁ d₂ : List (String × Obj))
    (hV : dictGet d₁ "V" = dictGet d₂ "V") :
    choiceSelected d₁ = choiceSelected d₂ := by
  unfold choiceSelected
  rw [hV]

/-- The text value only reads `V`. -/
theorem textValue_congr (d₁ d₂ : List (String × Obj))
    (hV : dictGet d₁ "V" = dictGet d₂ "V") :
    textValue d₁ = textValue d₂ := by
  unfold textValue
  rw [hV]

/-- A kid option is unchanged when the field dictionary at `oid` changes
only at its `Ff` entry (a kid may reference the field itself, in which
case only its unread `Ff` differs). -/
theorem kidOption_ff (doc : Doc) (oid : Nat) (D : List (String × Obj))
    (x₁ x₂ : Obj) (hD : docGet doc oid = some (.dict D)) (i : Nat) (kid : Obj) :
    kidOption (docSet doc oid (.dict (dictSet D "Ff" x₁))) i kid =
    kidOption (docSet doc oid (.dict (dictSet D "Ff" x₂))) i kid := by
  cases kid with
  | reference koid =>
      by_cases hk : koid = oid
      · subst hk
        simp only [kidOption]
        rw [docGet_docSet_self _ _ _ _ hD, docGet_docSet_self _ _ _ _ hD]
        simp only []
        rw [dictGet_dictSet_ne _ _ _ _ (by decide),
            dictGet_dictSet_ne _ _ _ _ (by decide)]
      · simp only [kidOption]
        rw [docGet_docSet_ne _ _ _ _ hk, docGet_docSet_ne _ _ _ _ hk]
  | _ => rfl

/-- The possibilities loop is unchanged under the same `Ff`-only change. -/
theorem possLoop_ff (doc : Doc) (oid : Nat) (D : List (String × Obj))
    (x₁ x₂ : Obj) (hD : docGet doc oid = some (.dict D)) :
    ∀ (kids : List Obj) (i : Nat),
      possLoop (docSet doc oid (.dict (dictSet D "Ff" x₁))) kids i =
      possLoop (docSet doc oid (.dict (dictSet D "Ff" x₂))) kids i
  | [], _ => rfl
  | kid :: rest, i => by
      unfold possLoop
      rw [kidOption_ff doc oid D x₁ x₂ hD i kid,
          possLoop_ff doc oid D x₁ x₂ hD rest (i + 1)]

/-- The option list of a radio field is unchanged under the same `Ff`-only
change of its own record. -/
theorem get_possibilities_ff (doc : Doc) (oid : Nat) (D : List (String × Obj))
    (x₁ x₂ : Obj) (hD : docGet doc oid = some (.dict D)) :
    get_possibilities (docSet doc oid (.dict (dictSet D "Ff" x₁))) oid =
    get_possibilities (docSet doc oid (.dict (dictSet D "Ff" x₂))) oid := by
  unfold get_possibilities
  rw [docGet_docSet_self _ _ _ _ hD, docGet_docSet_self _ _ _ _ hD]
  simp only []
  rw [dictGet_dictSet_ne _ _ _ _ (by decide),
      dictGet_dictSet_ne _ _ _ _ (by decide)]
  cases dictGet D "Kids" with
  | none => rfl
  | some ko =>
      cases ko
      case array kids => exact possLoop_ff doc oid D x₁ x₂ hD kids 0
      all_goals rfl

/-- Parallel outcome of regeneration on two forms whose only difference is
the field record's `Ff` entry (all other keys read equal): both panic,
both fail, or both succeed. -/
theorem regen_ff_rel (doc : Doc) (ids : List Nat) (n oid : Nat)
    (D E₁ E₂ : List (String × Obj))
    (hoid : ids[n]? = some oid)
    (hdoc : docGet doc oid = some (.dict D))
    (hV : dictGet E₁ "V" = dictGet E₂ "V")
    (hDA : dictGet E₁ "DA" = dictGet E₂ "DA")
    (hR : dictGet E₁ "Rect" = dictGet E₂ "Rect")
    (hAP : dictGet E₁ "AP" = dictGet E₂ "AP") :
    (regenerate_text_appearance ⟨docSet doc oid (.dict E₁), ids⟩ n = none ∧
     regenerate_text_appearance ⟨docSet doc oid (.dict E₂), ids⟩ n = none) ∨
    (regenerate_text_appearance ⟨docSet doc oid (.dict E₁), ids⟩ n = some (.error ()) ∧
     regenerate_text_appearance ⟨docSet doc oid (.dict E₂), ids⟩ n = some (.error ())) ∨
    (∃ h₁ h₂,
      regenerate_text_appearance ⟨docSet doc oid (.dict E₁), ids⟩ n = some (.ok h₁) ∧
      regenerate_text_appearance ⟨docSet doc oid (.dict E₂), ids⟩ n = some (.ok h₂)) := by
  unfold regenerate_text_appearance
  simp only [hoid]
  rw [docGet_docSet_self _ _ _ _ hdoc, docGet_docSet_self _ _ _ _ hdoc]
  simp only [hV, hDA, hR, hAP]
  split
  all_goals try exact Or.inr (Or.inl ⟨rfl, rfl⟩)
  split
  all_goals try exact Or.inr (Or.inl ⟨rfl, rfl⟩)
  split
  all_goals try exact Or.inr (Or.inl ⟨rfl, rfl⟩)
  split
  all_goals try exact Or.inr (Or.inl ⟨rfl, rfl⟩)
  rename_i object_id heqN
  by_cases hoe : object_id = oid
  · subst hoe
    rw [docGet_docSet_self _ _ _ _ hdoc, docGet_docSet_self _ _ _ _ hdoc]
    exact Or.inr (Or.inl ⟨rfl, rfl⟩)
  · rw [docGet_docSet_ne _ _ _ _ hoe, docGet_docSet_ne _ _ _ _ hoe]
    split
    all_goals try exact Or.inr (Or.inl ⟨rfl, rfl⟩)
    split
    all_goals try exact Or.inl ⟨rfl, rfl⟩
    exact Or.inr (Or.inr ⟨_, _, rfl, rfl⟩)

/-- Entry of the field record at index `n` under the given key, as far as it
is observable (`none` when the field chain does not resolve). -/
def fieldEntry (g : Form) (n : Nat) (key : String) : Option Obj :=
  match g.form_ids[n]? with
  | some oid =>
      match docGet g.doc oid with
      | some (.dict d) => dictGet d key
      | _ => none
  | none => none

/-- Observable effect of a mutator call: its panic/error/success outcome
together with the `V` and `AS` entries of the touched field on success. -/
def writeObs (r : Option (Except ValueError Form)) (n : Nat) :
    Option (Except ValueError (Option Obj × Option Obj)) :=
  r.map (Except.map (fun g => (fieldEntry g n "V", fieldEntry g n "AS")))

/-- Replace the `Ff` entry of the field record at index `n` (no-op when the
field chain does not resolve). -/
def setFf (f : Form) (n : Nat) (v : Int) : Form :=
  match f.form_ids[n]? with
  | some oid =>
      match docGet f.doc oid with
      | some (.dict d) =>
          ⟨docSet f.doc oid (.dict (dictSet d "Ff" (.integer v))), f.form_ids⟩
      | _ => f
  | none => f

/-- Overwrite the readonly component of a field state. -/
def withReadonly (ro : Bool) : FieldState → FieldState
  | .button => .button
  | .radio s o _ r => .radio s o ro r
  | .checkBox c _ r => .checkBox c ro r
  | .listBox s o m _ r => .listBox s o m ro r
  | .comboBox s o e _ r => .comboBox s o e ro r
  | .text t _ r => .text t ro r
  | .unknown => .unknown

/-- A record whose `Ff` is the odd integer `2k+1` is readonly. -/
theorem is_read_only_odd (D : List (String × Obj)) (k : Nat) :
    is_read_only (dictSet D "Ff" (.integer (Int.ofNat (2 * k + 1)))) = some true := by
  unfold is_read_only
  rw [get_field_flags_dictSet]
  simp only [Option.map_some', Option.some.injEq]
  rw [Nat.land_assoc]
  have he : fieldFlagsAll &&& READONLY = 1 := by decide
  rw [he, Nat.and_one_is_mod]
  have hm : (Int.ofNat (2 * k + 1) % 4294967296).toNat % 2 = 1 := by
    show ((((2 * k + 1 : Nat) : Int)) % 4294967296).toNat % 2 = 1
    omega
  rw [hm]
  rfl

/-- A record whose `Ff` is the even integer `2k` is not readonly. -/
theorem is_read_only_even (D : List (String × Obj)) (k : Nat) :
    is_read_only (dictSet D "Ff" (.integer (Int.ofNat (2 * k)))) = some false := by
  unfold is_read_only
  rw [get_field_flags_dictSet]
  simp only [Option.map_some', Option.some.injEq]
  rw [Nat.land_assoc]
  have he : fieldFlagsAll &&& READONLY = 1 := by decide
  rw [he, Nat.and_one_is_mod]
  have hm : (Int.ofNat (2 * k) % 4294967296).toNat % 2 = 0 := by
    show ((((2 * k : Nat) : Int)) % 4294967296).toNat % 2 = 0
    omega
  rw [hm]
  rfl

/-- Reading an entry of a freshly written field record. -/
theorem fieldEntry_docSet (doc : Doc) (ids : List Nat) (n oid : Nat)
    (E : List (String × Obj)) (key : String) (x : Obj)
    (hoid : ids[n]? = some oid) (hpres : docGet doc oid = some x) :
    fieldEntry ⟨docSet doc oid (.dict E), ids⟩ n key = dictGet E key := by
  unfold fieldEntry
  simp only [hoid]
  rw [docGet_docSet_self _ _ _ _ hpres]

/-- State reading ignores bit 0 of the flag word everywhere except in the
readonly component: the state of the `Ff = v₁` variant is the state of the
`Ff = v₂` variant with its readonly component overwritten. -/
theorem get_state_ff (f : Form) (n oid : Nat) (D : List (String × Obj))
    (v₁ v₂ : Int) (ro₁ ro₂ : Bool)
    (hoid : f.form_ids[n]? = some oid)
    (hD : docGet f.doc oid = some (.dict D))
    (hdiv : ((v₁ % 4294967296).toNat) / 2 = ((v₂ % 4294967296).toNat) / 2)
    (hro1 : is_read_only (dictSet D "Ff" (.integer v₁)) = some ro₁)
    (hro2 : is_read_only (dictSet D "Ff" (.integer v₂)) = some ro₂) :
    get_state ⟨docSet f.doc oid (.dict (dictSet D "Ff" (.integer v₁))), f.form_ids⟩ n =
    (get_state ⟨docSet f.doc oid (.dict (dictSet D "Ff" (.integer v₂))), f.form_ids⟩ n).map
      (withReadonly ro₁) := by
  set D₁ := dictSet D "Ff" (.integer v₁) with hD1
  set D₂ := dictSet D "Ff" (.integer v₂) with hD2
  have hfld₁ : docGet (docSet f.doc oid (.dict D₁)) oid = some (.dict D₁) :=
    docGet_docSet_self _ _ _ _ hD
  have hfld₂ : docGet (docSet f.doc oid (.dict D₂)) oid = some (.dict D₂) :=
    docGet_docSet_self _ _ _ _ hD
  have hVq : dictGet D₁ "V" = dictGet D₂ "V" := by
    rw [hD1, hD2, dictGet_dictSet_ne _ _ _ _ (by decide),
        dictGet_dictSet_ne _ _ _ _ (by decide)]
  have hASq : dictGet D₁ "AS" = dictGet D₂ "AS" := by
    rw [hD1, hD2, dictGet_dictSet_ne _ _ _ _ (by decide),
        dictGet_dictSet_ne _ _ _ _ (by decide)]
  have hOptq : dictGet D₁ "Opt" = dictGet D₂ "Opt" := by
    rw [hD1, hD2, dictGet_dictSet_ne _ _ _ _ (by decide),
        dictGet_dictSet_ne _ _ _ _ (by decide)]
  have hclq : classify D₁ = classify D₂ := classify_dictSet_ff D v₁ v₂ hdiv
  have hselq : radioSelected D₁ = radioSelected D₂ :=
    radioSelected_congr _ _ hVq hASq
  have hchq : checkbox_checked D₁ = checkbox_checked D₂ :=
    checkbox_checked_congr _ _ hVq hASq
  have hcselq : choiceSelected D₁ = choiceSelected D₂ :=
    choiceSelected_congr _ _ hVq
  have hcoq : choiceOptions D₁ = choiceOptions D₂ :=
    choiceOptions_congr _ _ hOptq
  have hmsq : choiceMultiselect D₁ = choiceMultiselect D₂ :=
    choiceMultiselect_dictSet_ff D v₁ v₂ hdiv
  have hedq : choiceEditable D₁ = choiceEditable D₂ :=
    choiceEditable_dictSet_ff D v₁ v₂ hdiv
  have hrqq : is_required D₁ = is_required D₂ :=
    is_required_dictSet_ff D v₁ v₂ hdiv
  have htvq : textValue D₁ = textValue D₂ := textValue_congr _ _ hVq
  have hpq : get_possibilities (docSet f.doc oid (.dict D₁)) oid =
      get_possibilities (docSet f.doc oid (.dict D₂)) oid :=
    get_possibilities_ff f.doc oid D (.integer v₁) (.integer v₂) hD
  simp only [get_state, hoid, hfld₁, hfld₂, hclq, hselq, hchq, hcselq, hcoq,
    hmsq, hedq, hrqq, htvq, hpq, hro1, hro2]
  cases classify D₂ with
  | none => rfl
  | some t =>
      cases t
      case button => rfl
      case radio =>
          cases radioSelected D₂ <;>
            cases get_possibilities (docSet f.doc oid (.dict D₂)) oid <;>
            cases is_required D₂ <;> rfl
      case checkBox =>
          cases checkbox_checked D₂ <;> cases is_required D₂ <;> rfl
      case listBox =>
          cases choiceOptions D₂ <;> cases choiceMultiselect D₂ <;>
            cases is_required D₂ <;> rfl
      case comboBox =>
          cases choiceOptions D₂ <;> cases choiceEditable D₂ <;>
            cases is_required D₂ <;> rfl
      case text =>
          cases is_required D₂ <;> rfl
      case unknown => rfl

/-- The checkbox write behaves identically with and without the readonly
bit. -/
theorem set_check_box_ff (f : Form) (n oid : Nat) (D : List (String × Obj))
    (k : Nat) (b : Bool)
    (hoid : f.form_ids[n]? = some oid)
    (hD : docGet f.doc oid = some (.dict D)) :
    writeObs (set_check_box ⟨docSet f.doc oid
      (.dict (dictSet D "Ff" (.integer (Int.ofNat (2 * k + 1))))), f.form_ids⟩ n b) n =
    writeObs (set_check_box ⟨docSet f.doc oid
      (.dict (dictSet D "Ff" (.integer (Int.ofNat (2 * k))))), f.form_ids⟩ n b) n := by
  set D₁ := dictSet D "Ff" (.integer (Int.ofNat (2 * k + 1))) with hD1
  set D₂ := dictSet D "Ff" (.integer (Int.ofNat (2 * k))) with hD2
  have hgs := get_state_ff f n oid D _ _ true false hoid hD (flags_div2 k)
    (is_read_only_odd D k) (is_read_only_even D k)
  have hfld₁ : docGet (docSet f.doc oid (.dict D₁)) oid = some (.dict D₁) :=
    docGet_docSet_self _ _ _ _ hD
  have hfld₂ : docGet (docSet f.doc oid (.dict D₂)) oid = some (.dict D₂) :=
    docGet_docSet_self _ _ _ _ hD
  have hAPq : dictGet D₁ "AP" = dictGet D₂ "AP" := by
    rw [hD1, hD2, dictGet_dictSet_ne _ _ _ _ (by decide),
        dictGet_dictSet_ne _ _ _ _ (by decide)]
  have honq : get_on_value D₁ = get_on_value D₂ := get_on_value_congr _ _ hAPq
  cases hst₂ : get_state ⟨docSet f.doc oid (.dict D₂), f.form_ids⟩ n with
  | none =>
      rw [hst₂] at hgs
      simp only [Option.map_none'] at hgs
      simp only [set_check_box, hst₂, hgs, writeObs, Option.map_none']
  | some st =>
      rw [hst₂] at hgs
      simp only [Option.map_some'] at hgs
      cases st with
      | checkBox ic ro rq =>
          simp only [withReadonly] at hgs
          simp only [set_check_box, hst₂, hgs, hoid, hfld₁, hfld₂, honq]
          simp only [writeObs, Option.map_some', Except.map]
          rw [fieldEntry_docSet _ _ _ _ _ _ _ hoid hfld₁,
              fieldEntry_docSet _ _ _ _ _ _ _ hoid hfld₂,
              fieldEntry_docSet _ _ _ _ _ _ _ hoid hfld₁,
              fieldEntry_docSet _ _ _ _ _ _ _ hoid hfld₂]
          rw [dictGet_dictSet_self, dictGet_dictSet_self,
              dictGet_dictSet_ne _ _ _ _ (by decide), dictGet_dictSet_self,
              dictGet_dictSet_ne _ _ _ _ (by decide), dictGet_dictSet_self]
      | button =>
          simp only [withReadonly] at hgs
          simp only [set_check_box, hst₂, hgs, writeObs, Option.map_some']
      | radio sel opts ro rq =>
          simp only [withReadonly] at hgs
          simp only [set_check_box, hst₂, hgs, writeObs, Option.map_some']
      | listBox sel opts ms ro rq =>
          simp only [withReadonly] at hgs
          simp only [set_check_box, hst₂, hgs, writeObs, Option.map_some']
      | comboBox sel opts ed ro rq =>
          simp only [withReadonly] at hgs
          simp only [set_check_box, hst₂, hgs, writeObs, Option.map_some']
      | text t ro rq =>
          simp only [withReadonly] at hgs
          simp only [set_check_box, hst₂, hgs, writeObs, Option.map_some']
      | unknown =>
          simp only [withReadonly] at hgs
          simp only [set_check_box, hst₂, hgs, writeObs, Option.map_some']

/-- The radio write behaves identically with and without the readonly bit. -/
theorem set_radio_ff (f : Form) (n oid : Nat) (D : List (String × Obj))
    (k : Nat) (c : String)
    (hoid : f.form_ids[n]? = some oid)
    (hD : docGet f.doc oid = some (.dict D)) :
    writeObs (set_radio ⟨docSet f.doc oid
      (.dict (dictSet D "Ff" (.integer (Int.ofNat (2 * k + 1))))), f.form_ids⟩ n c) n =
    writeObs (set_radio ⟨docSet f.doc oid
      (.dict (dictSet D "Ff" (.integer (Int.ofNat (2 * k))))), f.form_ids⟩ n c) n := by
  set D₁ := dictSet D "Ff" (.integer (Int.ofNat (2 * k + 1))) with hD1
  set D₂ := dictSet D "Ff" (.integer (Int.ofNat (2 * k))) with hD2
  have hgs := get_state_ff f n oid D _ _ true false hoid hD (flags_div2 k)
    (is_read_only_odd D k) (is_read_only_even D k)
  have hfld₁ : docGet (docSet f.doc oid (.dict D₁)) oid = some (.dict D₁) :=
    docGet_docSet_self _ _ _ _ hD
  have hfld₂ : docGet (docSet f.doc oid (.dict D₂)) oid = some (.dict D₂) :=
    docGet_docSet_self _ _ _ _ hD
  have hASq : dictGet D₁ "AS" = dictGet D₂ "AS" := by
    rw [hD1, hD2, dictGet_dictSet_ne _ _ _ _ (by decide),
        dictGet_dictSet_ne _ _ _ _ (by decide)]
  cases hst₂ : get_state ⟨docSet f.doc oid (.dict D₂), f.form_ids⟩ n with
  | none =>
      rw [hst₂] at hgs
      simp only [Option.map_none'] at hgs
      simp only [set_radio, hst₂, hgs, writeObs, Option.map_none']
  | some st =>
      rw [hst₂] at hgs
      simp only [Option.map_some'] at hgs
      cases st with
      | radio sel opts ro rq =>
          simp only [withReadonly] at hgs
          simp only [set_radio, hst₂, hgs, hoid, hfld₁, hfld₂]
          cases hc : opts.contains c with
          | false => simp only [hc, Bool.false_eq_true, if_false]
          | true =>
              simp only [hc, if_true]
              simp only [writeObs, Option.map_some', Except.map]
              have hAS' : ∀ x : Obj, dictGet (dictSet D₁ "V" x) "AS" =
                  dictGet (dictSet D₂ "V" x) "AS" := fun x => by
                rw [dictGet_dictSet_ne D₁ "V" "AS" x (by decide),
                    dictGet_dictSet_ne D₂ "V" "AS" x (by decide), hASq]
              rw [fieldEntry_docSet _ _ _ _ _ _ _ hoid hfld₁,
                  fieldEntry_docSet _ _ _ _ _ _ _ hoid hfld₂,
                  fieldEntry_docSet _ _ _ _ _ _ _ hoid hfld₁,
                  fieldEntry_docSet _ _ _ _ _ _ _ hoid hfld₂]
              rw [dictGet_dictSet_self, dictGet_dictSet_self, hAS' _]
      | button =>
          simp only [withReadonly] at hgs
          simp only [set_radio, hst₂, hgs, writeObs, Option.map_some']
      | checkBox ic ro rq =>
          simp only [withReadonly] at hgs
          simp only [set_radio, hst₂, hgs, writeObs, Option.map_some']
      | listBox sel opts ms ro rq =>
          simp only [withReadonly] at hgs
          simp only [set_radio, hst₂, hgs, writeObs, Option.map_some']
      | comboBox sel opts ed ro rq =>
          simp only [withReadonly] at hgs
          simp only [set_radio, hst₂, hgs, writeObs, Option.map_some']
      | text t ro rq =>
          simp only [withReadonly] at hgs
          simp only [set_radio, hst₂, hgs, writeObs, Option.map_some']
      | unknown =>
          simp only [withReadonly] at hgs
          simp only [set_radio, hst₂, hgs, writeObs, Option.map_some']

/-- The list-box write behaves identically with and without the readonly
bit. -/
theorem set_list_box_ff (f : Form) (n oid : Nat) (D : List (String × Obj))
    (k : Nat) (cs : List String)
    (hoid : f.form_ids[n]? = some oid)
    (hD : docGet f.doc oid = some (.dict D)) :
    writeObs (set_list_box ⟨docSet f.doc oid
      (.dict (dictSet D "Ff" (.integer (Int.ofNat (2 * k + 1))))), f.form_ids⟩ n cs) n =
    writeObs (set_list_box ⟨docSet f.doc oid
      (.dict (dictSet D "Ff" (.integer (Int.ofNat (2 * k))))), f.form_ids⟩ n cs) n := by
  set D₁ := dictSet D "Ff" (.integer (Int.ofNat (2 * k + 1))) with hD1
  set D₂ := dictSet D "Ff" (.integer (Int.ofNat (2 * k))) with hD2
  have hgs := get_state_ff f n oid D _ _ true false hoid hD (flags_div2 k)
    (is_read_only_odd D k) (is_read_only_even D k)
  have hfld₁ : docGet (docSet f.doc oid (.dict D₁)) oid = some (.dict D₁) :=
    docGet_docSet_self _ _ _ _ hD
  have hfld₂ : docGet (docSet f.doc oid (.dict D₂)) oid = some (.dict D₂) :=
    docGet_docSet_self _ _ _ _ hD
  have hASq : dictGet D₁ "AS" = dictGet D₂ "AS" := by
    rw [hD1, hD2, dictGet_dictSet_ne _ _ _ _ (by decide),
        dictGet_dictSet_ne _ _ _ _ (by decide)]
  cases hst₂ : get_state ⟨docSet f.doc oid (.dict D₂), f.form_ids⟩ n with
  | none =>
      rw [hst₂] at hgs
      simp only [Option.map_none'] at hgs
      simp only [set_list_box, hst₂, hgs, writeObs, Option.map_none']
  | some st =>
      rw [hst₂] at hgs
      simp only [Option.map_some'] at hgs
      cases st with
      | listBox sel opts ms ro rq =>
          simp only [withReadonly] at hgs
          simp only [set_list_box, hst₂, hgs, hoid, hfld₁, hfld₂]
          cases hcond : cs.foldl (fun a h => opts.contains h && a) true with
          | false => simp only [hcond, Bool.false_eq_true, if_false]
          | true =>
              simp only [hcond, if_true]
              cases hms : (!ms && decide (cs.length > 1)) with
              | true => simp only [hms, if_true]
              | false =>
                  simp only [hms, Bool.false_eq_true, if_false]
                  simp only [writeObs, Option.map_some', Except.map]
                  have hAS' : ∀ x : Obj, dictGet (dictSet D₁ "V" x) "AS" =
                      dictGet (dictSet D₂ "V" x) "AS" := fun x => by
                    rw [dictGet_dictSet_ne D₁ "V" "AS" x (by decide),
                        dictGet_dictSet_ne D₂ "V" "AS" x (by decide), hASq]
                  rw [fieldEntry_docSet _ _ _ _ _ _ _ hoid hfld₁,
                      fieldEntry_docSet _ _ _ _ _ _ _ hoid hfld₂,
                      fieldEntry_docSet _ _ _ _ _ _ _ hoid hfld₁,
                      fieldEntry_docSet _ _ _ _ _ _ _ hoid hfld₂]
                  rw [dictGet_dictSet_self, dictGet_dictSet_self, hAS' _]
      | button =>
          simp only [withReadonly] at hgs
          simp only [set_list_box, hst₂, hgs, writeObs, Option.map_some']
      | checkBox ic ro rq =>
          simp only [withReadonly] at hgs
          simp only [set_list_box, hst₂, hgs, writeObs, Option.map_some']
      | radio sel opts ro rq =>
          simp only [withReadonly] at hgs
          simp only [set_list_box, hst₂, hgs, writeObs, Option.map_some']
      | comboBox sel opts ed ro rq =>
          simp only [withReadonly] at hgs
          simp only [set_list_box, hst₂, hgs, writeObs, Option.map_some']
      | text t ro rq =>
          simp only [withReadonly] at hgs
          simp only [set_list_box, hst₂, hgs, writeObs, Option.map_some']
      | unknown =>
          simp only [withReadonly] at hgs
          simp only [set_list_box, hst₂, hgs, writeObs, Option.map_some']

/-- The combo-box write behaves identically with and without the readonly
bit. -/
theorem set_combo_box_ff (f : Form) (n oid : Nat) (D : List (String × Obj))
    (k : Nat) (c : String)
    (hoid : f.form_ids[n]? = some oid)
    (hD : docGet f.doc oid = some (.dict D)) :
    writeObs (set_combo_box ⟨docSet f.doc oid
      (.dict (dictSet D "Ff" (.integer (Int.ofNat (2 * k + 1))))), f.form_ids⟩ n c) n =
    writeObs (set_combo_box ⟨docSet f.doc oid
      (.dict (dictSet D "Ff" (.integer (Int.ofNat (2 * k))))), f.form_ids⟩ n c) n := by
  set D₁ := dictSet D "Ff" (.integer (Int.ofNat (2 * k + 1))) with hD1
  set D₂ := dictSet D "Ff" (.integer (Int.ofNat (2 * k))) with hD2
  have hgs := get_state_ff f n oid D _ _ true false hoid hD (flags_div2 k)
    (is_read_only_odd D k) (is_read_only_even D k)
  have hfld₁ : docGet (docSet f.doc oid (.dict D₁)) oid = some (.dict D₁) :=
    docGet_docSet_self _ _ _ _ hD
  have hfld₂ : docGet (docSet f.doc oid (.dict D₂)) oid = some (.dict D₂) :=
    docGet_docSet_self _ _ _ _ hD
  have hASq : dictGet D₁ "AS" = dictGet D₂ "AS" := by
    rw [hD1, hD2, dictGet_dictSet_ne _ _ _ _ (by decide),
        dictGet_dictSet_ne _ _ _ _ (by decide)]
  cases hst₂ : get_state ⟨docSet f.doc oid (.dict D₂), f.form_ids⟩ n with
  | none =>
      rw [hst₂] at hgs
      simp only [Option.map_none'] at hgs
      simp only [set_combo_box, hst₂, hgs, writeObs, Option.map_none']
  | some st =>
      rw [hst₂] at hgs
      simp only [Option.map_some'] at hgs
      cases st with
      | comboBox sel opts ed ro rq =>
          simp only [withReadonly] at hgs
          simp only [set_combo_box, hst₂, hgs, hoid, hfld₁, hfld₂]
          cases hc : (opts.contains c || ed) with
          | false => simp only [hc, Bool.false_eq_true, if_false]
          | true =>
              simp only [hc, if_true]
              simp only [writeObs, Option.map_some', Except.map]
              have hAS' : ∀ x : Obj, dictGet (dictSet D₁ "V" x) "AS" =
                  dictGet (dictSet D₂ "V" x) "AS" := fun x => by
                rw [dictGet_dictSet_ne D₁ "V" "AS" x (by decide),
                    dictGet_dictSet_ne D₂ "V" "AS" x (by decide), hASq]
              rw [fieldEntry_docSet _ _ _ _ _ _ _ hoid hfld₁,
                  fieldEntry_docSet _ _ _ _ _ _ _ hoid hfld₂,
                  fieldEntry_docSet _ _ _ _ _ _ _ hoid hfld₁,
                  fieldEntry_docSet _ _ _ _ _ _ _ hoid hfld₂]
              rw [dictGet_dictSet_self, dictGet_dictSet_self, hAS' _]
      | button =>
          simp only [withReadonly] at hgs
          simp only [set_combo_box, hst₂, hgs, writeObs, Option.map_some']
      | checkBox ic ro rq =>
          simp only [withReadonly] at hgs
          simp only [set_combo_box, hst₂, hgs, writeObs, Option.map_some']
      | radio sel opts ro rq =>
          simp only [withReadonly] at hgs
          simp only [set_combo_box, hst₂, hgs, writeObs, Option.map_some']
      | listBox sel opts ms ro rq =>
          simp only [withReadonly] at hgs
          simp only [set_combo_box, hst₂, hgs, writeObs, Option.map_some']
      | text t ro rq =>
          simp only [withReadonly] at hgs
          simp only [set_combo_box, hst₂, hgs, writeObs, Option.map_some']
      | unknown =>
          simp only [withReadonly] at hgs
          simp only [set_combo_box, hst₂, hgs, writeObs, Option.map_some']

/-- The text write behaves identically with and without the readonly bit:
same panic behavior, and the same committed `V` and untouched `AS`. -/
theorem set_text_ff (f : Form) (n oid : Nat) (D : List (String × Obj))
    (k : Nat) (s : String)
    (hoid : f.form_ids[n]? = some oid)
    (hD : docGet f.doc oid = some (.dict D)) :
    writeObs (set_text ⟨docSet f.doc oid
      (.dict (dictSet D "Ff" (.integer (Int.ofNat (2 * k + 1))))), f.form_ids⟩ n s) n =
    writeObs (set_text ⟨docSet f.doc oid
      (.dict (dictSet D "Ff" (.integer (Int.ofNat (2 * k))))), f.form_ids⟩ n s) n := by
  set D₁ := dictSet D "Ff" (.integer (Int.ofNat (2 * k + 1))) with hD1
  set D₂ := dictSet D "Ff" (.integer (Int.ofNat (2 * k))) with hD2
  have hgs := get_state_ff f n oid D _ _ true false hoid hD (flags_div2 k)
    (is_read_only_odd D k) (is_read_only_even D k)
  have hfld₁ : docGet (docSet f.doc oid (.dict D₁)) oid = some (.dict D₁) :=
    docGet_docSet_self _ _ _ _ hD
  have hfld₂ : docGet (docSet f.doc oid (.dict D₂)) oid = some (.dict D₂) :=
    docGet_docSet_self _ _ _ _ hD
  cases hst₂ : get_state ⟨docSet f.doc oid (.dict D₂), f.form_ids⟩ n with
  | none =>
      rw [hst₂] at hgs
      simp only [Option.map_none'] at hgs
      simp only [set_text, hst₂, hgs, writeObs, Option.map_none']
  | some st =>
      rw [hst₂] at hgs
      simp only [Option.map_some'] at hgs
      cases st with
      | text t ro rq =>
          simp only [withReadonly] at hgs
          simp only [set_text, hst₂, hgs, hoid, hfld₁, hfld₂]
          rw [docSet_docSet_self, docSet_docSet_self]
          set E₁ := dictSet D₁ "V" (Obj.strLit s) with hE1
          set E₂ := dictSet D₂ "V" (Obj.strLit s) with hE2
          have hVq : dictGet E₁ "V" = dictGet E₂ "V" := by
            rw [hE1, hE2, dictGet_dictSet_self, dictGet_dictSet_self]
          have hDAq : dictGet E₁ "DA" = dictGet E₂ "DA" := by
            rw [hE1, hE2, dictGet_dictSet_ne D₁ "V" "DA" _ (by decide),
                dictGet_dictSet_ne D₂ "V" "DA" _ (by decide), hD1, hD2,
                dictGet_dictSet_ne D "Ff" "DA" _ (by decide),
                dictGet_dictSet_ne D "Ff" "DA" _ (by decide)]
          have hRq : dictGet E₁ "Rect" = dictGet E₂ "Rect" := by
            rw [hE1, hE2, dictGet_dictSet_ne D₁ "V" "Rect" _ (by decide),
                dictGet_dictSet_ne D₂ "V" "Rect" _ (by decide), hD1, hD2,
                dictGet_dictSet_ne D "Ff" "Rect" _ (by decide),
                dictGet_dictSet_ne D "Ff" "Rect" _ (by decide)]
          have hAPq : dictGet E₁ "AP" = dictGet E₂ "AP" := by
            rw [hE1, hE2, dictGet_dictSet_ne D₁ "V" "AP" _ (by decide),
                dictGet_dictSet_ne D₂ "V" "AP" _ (by decide), hD1, hD2,
                dictGet_dictSet_ne D "Ff" "AP" _ (by decide),
                dictGet_dictSet_ne D "Ff" "AP" _ (by decide)]
          have hASq : dictGet E₁ "AS" = dictGet E₂ "AS" := by
            rw [hE1, hE2, dictGet_dictSet_ne D₁ "V" "AS" _ (by decide),
                dictGet_dictSet_ne D₂ "V" "AS" _ (by decide), hD1, hD2,
                dictGet_dictSet_ne D "Ff" "AS" _ (by decide),
                dictGet_dictSet_ne D "Ff" "AS" _ (by decide)]
          have hrel := regen_ff_rel f.doc f.form_ids n oid D E₁ E₂ hoid hD
            hVq hDAq hRq hAPq
          rcases hrel with ⟨h1, h2⟩ | ⟨h1, h2⟩ | ⟨g1, g2, h1, h2⟩
          · rw [h1, h2]
          · rw [h1, h2]
            simp only [writeObs, Option.map_some', Except.map]
            rw [fieldEntry_docSet _ _ _ _ _ _ _ hoid hD,
                fieldEntry_docSet _ _ _ _ _ _ _ hoid hD,
                fieldEntry_docSet _ _ _ _ _ _ _ hoid hD,
                fieldEntry_docSet _ _ _ _ _ _ _ hoid hD]
            rw [hVq, hASq]
          · rw [h1, h2]
            obtain ⟨hgi1, hp1⟩ := regen_ok_preserves _ n g1 h1
            obtain ⟨hgi2, hp2⟩ := regen_ok_preserves _ n g2 h2
            have hfe1 : ∀ key, fieldEntry g1 n key = dictGet E₁ key := by
              intro key
              unfold fieldEntry
              simp only [hgi1, hoid]
              rw [hp1 oid E₁ (docGet_docSet_self _ _ _ _ hD)]
            have hfe2 : ∀ key, fieldEntry g2 n key = dictGet E₂ key := by
              intro key
              unfold fieldEntry
              simp only [hgi2, hoid]
              rw [hp2 oid E₂ (docGet_docSet_self _ _ _ _ hD)]
            simp only [writeObs, Option.map_some', Except.map]
            rw [hfe1, hfe2, hfe1, hfe2, hVq, hASq]
      | button =>
          simp only [withReadonly] at hgs
          simp only [set_text, hst₂, hgs, writeObs, Option.map_some']
      | checkBox ic ro rq =>
          simp only [withReadonly] at hgs
          simp only [set_text, hst₂, hgs, writeObs, Option.map_some']
      | radio sel opts ro rq =>
          simp only [withReadonly] at hgs
          simp only [set_text, hst₂, hgs, writeObs, Option.map_some']
      | listBox sel opts ms ro rq =>
          simp only [withReadonly] at hgs
          simp only [set_text, hst₂, hgs, writeObs, Option.map_some']
      | comboBox sel opts ed ro rq =>
          simp only [withReadonly] at hgs
          simp only [set_text, hst₂, hgs, writeObs, Option.map_some']
      | unknown =>
          simp only [withReadonly] at hgs
          simp only [set_text, hst₂, hgs, writeObs, Option.map_some']

/-- No outcome of `set_text` is the `Readonly` error. -/
theorem set_text_no_readonly (f : Form) (n : Nat) (s : String) :
    set_text f n s ≠ some (.error .readonly) := by
  intro h
  unfold set_text at h
  repeat' split at h
  all_goals try simp at h
  rename_i q1 oid q2 q3 field q4
  cases hr : regenerate_text_appearance
      ⟨docSet f.doc oid (.dict (dictSet field "V" (.strLit s))), f.form_ids⟩ n with
  | none => rw [hr] at h; simp at h
  | some r => rw [hr] at h; cases r <;> simp at h

/-- No outcome of `set_check_box` is the `Readonly` error. -/
theorem set_check_box_no_readonly (f : Form) (n : Nat) (b : Bool) :
    set_check_box f n b ≠ some (.error .readonly) := by
  intro h
  unfold set_check_box at h
  repeat' split at h
  all_goals simp at h

/-- No outcome of `set_radio` is the `Readonly` error. -/
theorem set_radio_no_readonly (f : Form) (n : Nat) (c : String) :
    set_radio f n c ≠ some (.error .readonly) := by
  intro h
  unfold set_radio at h
  repeat' split at h
  all_goals simp at h

/-- No outcome of `set_list_box` is the `Readonly` error. -/
theorem set_list_box_no_readonly (f : Form) (n : Nat) (cs : List String) :
    set_list_box f n cs ≠ some (.error .readonly) := by
  intro h
  unfold set_list_box at h
  repeat' split at h
  all_goals simp at h

/-- No outcome of `set_combo_box` is the `Readonly` error. -/
theorem set_combo_box_no_readonly (f : Form) (n : Nat) (c : String) :
    set_combo_box f n c ≠ some (.error .readonly) := by
  intro h
  unfold set_combo_box at h
  repeat' split at h
  all_goals simp at h

/-- C8: no mutating operation ever returns the `Readonly` error, and none
enforces the readonly behavior flag: on the field whose `Ff` carries the
`READONLY` bit (flag word `2k+1`) each of the five mutators has the same
observable behavior — panic, error kind, committed `V` and `AS` — as on
the corresponding non-readonly field (flag word `2k`). -/
theorem C8_readonly_unenforced (f : Form) (n : Nat) (k : Nat) (s : String)
    (b : Bool) (cs : List String) (c : String) :
    set_text f n s ≠ some (.error .readonly) ∧
    set_check_box f n b ≠ some (.error .readonly) ∧
    set_radio f n c ≠ some (.error .readonly) ∧
    set_list_box f n cs ≠ some (.error .readonly) ∧
    set_combo_box f n c ≠ some (.error .readonly) ∧
    writeObs (set_text (setFf f n (Int.ofNat (2 * k + 1))) n s) n =
      writeObs (set_text (setFf f n (Int.ofNat (2 * k))) n s) n ∧
    writeObs (set_check_box (setFf f n (Int.ofNat (2 * k + 1))) n b) n =
      writeObs (set_check_box (setFf f n (Int.ofNat (2 * k))) n b) n ∧
    writeObs (set_radio (setFf f n (Int.ofNat (2 * k + 1))) n c) n =
      writeObs (set_radio (setFf f n (Int.ofNat (2 * k))) n c) n ∧
    writeObs (set_list_box (setFf f n (Int.ofNat (2 * k + 1))) n cs) n =
      writeObs (set_list_box (setFf f n (Int.ofNat (2 * k))) n cs) n ∧
    writeObs (set_combo_box (setFf f n (Int.ofNat (2 * k + 1))) n c) n =
      writeObs (set_combo_box (setFf f n (Int.ofNat (2 * k))) n c) n := by
  refine ⟨set_text_no_readonly f n s, set_check_box_no_readonly f n b,
    set_radio_no_readonly f n c, set_list_box_no_readonly f n cs,
    set_combo_box_no_readonly f n c, ?_, ?_, ?_, ?_, ?_⟩
  · cases hoid : f.form_ids[n]? with
    | none => simp only [setFf, hoid]
    | some oid =>
        cases hf : docGet f.doc oid with
        | none => simp only [setFf, hoid, hf]
        | some o =>
            cases o
            case dict D =>
                simp only [setFf, hoid, hf]
                exact set_text_ff f n oid D k s hoid hf
            all_goals simp only [setFf, hoid, hf]
  · cases hoid : f.form_ids[n]? with
    | none => simp only [setFf, hoid]
    | some oid =>
        cases hf : docGet f.doc oid with
        | none => simp only [setFf, hoid, hf]
        | some o =>
            cases o
            case dict D =>
                simp only [setFf, hoid, hf]
                exact set_check_box_ff f n oid D k b hoid hf
            all_goals simp only [setFf, hoid, hf]
  · cases hoid : f.form_ids[n]? with
    | none => simp only [setFf, hoid]
    | some oid =>
        cases hf : docGet f.doc oid with
        | none => simp only [setFf, hoid, hf]
        | some o =>
            cases o
            case dict D =>
                simp only [setFf, hoid, hf]
                exact set_radio_ff f n oid D k c hoid hf
            all_goals simp only [setFf, hoid, hf]
  · cases hoid : f.form_ids[n]? with
    | none => simp only [setFf, hoid]
    | some oid =>
        cases hf : docGet f.doc oid with
        | none => simp only [setFf, hoid, hf]
        | some o =>
            cases o
            case dict D =>
                simp only [setFf, hoid, hf]
                exact set_list_box_ff f n oid D k cs hoid hf
            all_goals simp only [setFf, hoid, hf]
  · cases hoid : f.form_ids[n]? with
    | none => simp only [setFf, hoid]
    | some oid =>
        cases hf : docGet f.doc oid with
        | none => simp only [setFf, hoid, hf]
        | some o =>
            cases o
            case dict D =>
                simp only [setFf, hoid, hf]
                exact set_combo_box_ff f n oid D k c hoid hf
            all_goals simp only [setFf, hoid, hf]

end PdfForm
